import Mathlib

/-!
Verification of the ChiptuneSAK core (ctsBase.py, ctsChirp.py, ctsExportUtil.py)
against its natural-language specification.

The Python code is shallowly embedded: Python ints become `Int`, Python's floor
division `//` becomes `pydiv` (`Int.fdiv`), Python's `%` becomes `pymod`,
Python lists become `List`, `None`-able parameters become `Option`, and code
paths that raise become `Except PyErr`.  Python's `sorted` (a stable sort) is
embedded as `List.insertionSort`, which inserts each element in front of the
first element it compares `≤` to and therefore preserves the relative order of
elements with equal keys, exactly like CPython's stable sort.
-/

/-- Error kinds raised by the embedded code.  `valueError`, `typeError`,
`nameError` and `indexError` are Python's builtin exception kinds;
`chiptuneSAKValueError` and `chiptuneSAKQuantizationError` are the two distinct
library exception classes raised in the sources (imported from the ctsErrors
module); `fuelExhausted` marks a `while` loop of the source that does not
terminate on the given input within the supplied fuel. -/
inductive PyErr where
  | valueError (msg : String)
  | typeError (msg : String)
  | nameError (msg : String)
  | indexError (msg : String)
  | chiptuneSAKValueError (msg : String)
  | chiptuneSAKQuantizationError (msg : String)
  | fuelExhausted
  deriving DecidableEq

/-- Decidable equality of `Except` results, so that concrete evaluations of the
embedded fallible functions can be checked by `decide`. -/
instance {e a : Type} [DecidableEq e] [DecidableEq a] : DecidableEq (Except e a)
  | .ok x, .ok y => decidable_of_iff (x = y) (by simp)
  | .error x, .error y => decidable_of_iff (x = y) (by simp)
  | .ok _, .error _ => isFalse (fun h => by cases h)
  | .error _, .ok _ => isFalse (fun h => by cases h)

/-- Python's floor division `a // b` (for `b ≠ 0`; the sources only divide by
time-signature denominators, tick grids and modulation denominators). -/
def pydiv (a b : Int) : Int := Int.fdiv a b

/-- Python's modulo `a % b`, which satisfies `a % b = a - b * (a // b)`. -/
def pymod (a b : Int) : Int := a - b * pydiv a b

/-- Truthiness of an optional Python int: `None` and `0` are falsy. -/
def truthy : Option Int → Bool
  | none => false
  | some v => v != 0

/-- Python `len`, applied to a value that is either an int or a list of ints;
`len` of an int raises `TypeError`. -/
def py_len : Int ⊕ List Int → Except PyErr Int
  | .inr l => .ok (l.length : Int)
  | .inl _ => .error (.typeError "object of type int has no len()")

/-- Python list indexing `l[i]` with negative-index support: a negative index
counts from the end, and an index out of range raises `IndexError`. -/
def pyGet (l : List Int) (i : Int) : Except PyErr Int :=
  let j := if i < 0 then i + l.length else i
  if h : 0 ≤ j ∧ j < l.length then
    .ok (l.get ⟨j.toNat, by omega⟩)
  else
    .error (.indexError "list index out of range")

/-- Lexicographic comparison of two-component integer sort keys, as used by
Python's `sorted` with a two-element tuple key. -/
def lexLe2 {α : Type} (f g : α → Int) (a b : α) : Prop :=
  f a < f b ∨ (f a = f b ∧ g a ≤ g b)

instance {α : Type} (f g : α → Int) : DecidableRel (lexLe2 f g) := fun a b => by
  unfold lexLe2; infer_instance

instance {α : Type} (f g : α → Int) : IsTotal α (lexLe2 f g) :=
  ⟨fun a b => by unfold lexLe2; omega⟩

instance {α : Type} (f g : α → Int) : IsTrans α (lexLe2 f g) :=
  ⟨fun a b c => by unfold lexLe2; omega⟩

/-- Lexicographic comparison of three-component integer sort keys, as used by
Python's `sorted` on namedtuples with three integer fields. -/
def lexLe3 {α : Type} (f g h : α → Int) (a b : α) : Prop :=
  f a < f b ∨ (f a = f b ∧ (g a < g b ∨ (g a = g b ∧ h a ≤ h b)))

instance {α : Type} (f g h : α → Int) : DecidableRel (lexLe3 f g h) := fun a b => by
  unfold lexLe3; infer_instance

instance {α : Type} (f g h : α → Int) : IsTotal α (lexLe3 f g h) :=
  ⟨fun a b => by unfold lexLe3; omega⟩

instance {α : Type} (f g h : α → Int) : IsTrans α (lexLe3 f g h) :=
  ⟨fun a b c => by unfold lexLe3; omega⟩

/-!
Data model (ctsBase.py namedtuples and dataclass, ctsChirp.py classes).
-/

/-- ctsChirp.Note: a note with MIDI pitch, start tick, tick duration, velocity
and a tied-to-next flag. -/
structure Note where
  note_num : Int
  start_time : Int
  duration : Int
  velocity : Int
  tied : Bool
  deriving DecidableEq

/-- ctsBase TimeSignatureEvent namedtuple `(start_time, num, denom)`. -/
structure TimeSignature where
  start_time : Int
  num : Int
  denom : Int
  deriving DecidableEq

/-- ctsBase KeySignatureEvent namedtuple `(start_time, key)`.  The key value is
a ctsKey.ChirpKey; that module is not part of the core sources, so (modelled
from the spec, which calls the second field simply "key") the key is
represented by its name string. -/
structure KeySignature where
  start_time : Int
  key : String
  deriving DecidableEq

/-- ctsBase TempoEvent namedtuple `(start_time, bpm)`. -/
structure Tempo where
  start_time : Int
  bpm : Int
  deriving DecidableEq

/-- The part of a mido MIDI message that the embedded code inspects: its type
string and (for program changes) its program number. -/
structure MidiMsg where
  type : String
  program : Int
  deriving DecidableEq

/-- ctsBase OtherMidiEvent namedtuple `(start_time, msg)`. -/
structure OtherMidi where
  start_time : Int
  msg : MidiMsg
  deriving DecidableEq

/-- ctsBase ProgramEvent namedtuple `(start_time, program)`. -/
structure Program where
  start_time : Int
  program : Int
  deriving DecidableEq

/-- ctsBase Beat namedtuple `(start_time, measure, beat)`. -/
structure Beat where
  start_time : Int
  measure : Int
  beat : Int
  deriving DecidableEq

/-- ctsBase Rest namedtuple `(start_time, duration)`. -/
structure Rest where
  start_time : Int
  duration : Int
  deriving DecidableEq

/-- ctsBase MeasureMarker namedtuple `(start_time, measure_number)`. -/
structure MeasureMarker where
  start_time : Int
  measure_number : Int
  deriving DecidableEq

/-- ctsBase SongMetadata dataclass. -/
structure SongMetadata where
  ppq : Int
  name : String
  composer : String
  copyright : String
  time_signature : TimeSignature
  key_signature : KeySignature
  bpm : Int
  deriving DecidableEq

/-- The keys of the `self.stats` dictionary that the embedded operations write.
A Python `collections.Counter` compares equal to another exactly when they hold
the same elements with the same multiplicities, so a counter of integer deltas
is represented as a `Multiset Int`; a key absent from the dictionary is
`none`. -/
structure Stats where
  noteStartDeltas : Option (Multiset Int)
  durationDeltas : Option (Multiset Int)
  deriving DecidableEq

/-- ctsChirp.ChirpTrack.  The back-reference to the owning song is used only at
construction time (to inherit the default quantization grids) and is not a
field here; the track's own copies of the grids are. -/
structure ChirpTrack where
  name : String
  channel : Int
  notes : List Note
  other : List OtherMidi
  qticks_notes : Int
  qticks_durations : Int
  deriving DecidableEq

/-- ctsChirp.ChirpSong.  The `midi_meta_tracks` / `midi_note_tracks` fields
hold raw mido import objects never read by the core operations and are
omitted. -/
structure ChirpSong where
  metadata : SongMetadata
  qticks_notes : Int
  qticks_durations : Int
  tracks : List ChirpTrack
  other : List OtherMidi
  time_signature_changes : List TimeSignature
  key_signature_changes : List KeySignature
  tempo_changes : List Tempo
  stats : Stats
  deriving DecidableEq

/-!
Quantization engine (ctsBase.py).
-/

/-- ctsBase.quantize_fn: snap a time to the grid `qticks`.  `current` is the
grid line at or below `t`, `next` the one above; the code keeps `current` when
`abs(t - current) <= abs(next - t)` and otherwise moves up to `next`. -/
def quantize_fn (t qticks : Int) : Int :=
  let current := pydiv t qticks
  let next := current + 1
  let current := current * qticks
  let next := next * qticks
  if |t - current| ≤ |next - t| then current else next

/-- ctsBase.quantization_error: distance from `t_ticks` to the nearest line of
the grid `q_ticks`. -/
def quantization_error (t_ticks q_ticks : Int) : Int :=
  let j := pydiv t_ticks q_ticks
  min |t_ticks - q_ticks * j| |t_ticks - q_ticks * (j + 1)|

/-- ctsBase.objective_error: maximum quantization error over a set of times.
Python's `max` over an empty generator raises, hence the `Except`. -/
def objective_error (notes : List Int) (test_quantization : Int) : Except PyErr Int :=
  match notes.map (fun n => quantization_error n test_quantization) with
  | [] => .error (.valueError "max() arg is an empty sequence")
  | x :: xs => .ok (xs.foldl max x)

/-!
Arithmetic facts about `pydiv`, `pymod` and `quantize_fn`.
-/

theorem pydiv_eq_ediv (a : Int) {b : Int} (hb : 0 < b) : pydiv a b = a / b := by
  unfold pydiv
  exact Int.fdiv_eq_ediv a hb.le

theorem pydiv_mul_cancel {a b : Int} (hb : b ≠ 0) (h : b ∣ a) :
    pydiv a b * b = a := by
  obtain ⟨c, rfl⟩ := h
  unfold pydiv
  rw [mul_comm b c, Int.mul_fdiv_cancel _ hb, mul_comm]

theorem pymod_eq_zero_of_dvd {a b : Int} (hb : b ≠ 0) (h : b ∣ a) :
    pymod a b = 0 := by
  unfold pymod
  rw [mul_comm, pydiv_mul_cancel hb h, sub_self]

theorem quantize_fn_dvd (t q : Int) : q ∣ quantize_fn t q := by
  unfold quantize_fn
  dsimp only
  split
  · exact ⟨pydiv t q, mul_comm _ _⟩
  · exact ⟨pydiv t q + 1, mul_comm _ _⟩

theorem quantize_fn_fixed {t q : Int} (hq : 0 < q) (h : q ∣ t) :
    quantize_fn t q = t := by
  unfold quantize_fn
  dsimp only
  have hmul : pydiv t q * q = t := pydiv_mul_cancel hq.ne' h
  rw [if_pos]
  · exact hmul
  · rw [hmul]
    have : |t - t| = 0 := by simp
    rw [this]
    positivity

/-- Claim C5, corrected.  For a positive grid, `quantize_fn` returns a multiple
of the grid at minimum distance from `t`; when `t` is exactly halfway between
two grid lines the result is the lower (earlier) multiple, because the code
keeps `current` when `abs(t - current) <= abs(next - t)`. -/
theorem C5_quantize_fn_nearest (t q : Int) (hq : 0 < q) :
    q ∣ quantize_fn t q ∧
    (∀ k : Int, |t - quantize_fn t q| ≤ |t - q * k|) ∧
    (∀ k : Int, |t - q * k| = |t - quantize_fn t q| → quantize_fn t q ≤ q * k) := by
  have hq0 : q ≠ 0 := hq.ne'
  have hdvd := quantize_fn_dvd t q
  set d := t / q with hd
  set r := t % q with hr
  have hdecomp : q * d + r = t := Int.ediv_add_emod t q
  have hr0 : 0 ≤ r := Int.emod_nonneg t hq0
  have hrq : r < q := Int.emod_lt_of_pos t hq
  have hquant : quantize_fn t q = if r ≤ q - r then q * d else q * (d + 1) := by
    unfold quantize_fn
    dsimp only
    rw [pydiv_eq_ediv t hq, ← hd]
    have h1 : t - d * q = r := by rw [mul_comm]; omega
    have h2 : (d + 1) * q - t = q - r := by rw [add_mul, one_mul, mul_comm]; omega
    rw [h1, h2, abs_of_nonneg hr0, abs_of_nonneg (by omega)]
    split
    · rw [mul_comm]
    · rw [mul_comm]
  refine ⟨hdvd, ?_, ?_⟩
  · intro k
    have hdiff : t - q * k = q * (d - k) + r := by rw [mul_sub]; omega
    rcases le_or_lt k d with hk | hk
    · have hge : 0 ≤ q * (d - k) := mul_nonneg hq.le (by omega)
      have habs : |t - q * k| = q * (d - k) + r := by rw [hdiff, abs_of_nonneg (by omega)]
      rw [hquant]
      split
      · rw [abs_of_nonneg (by omega), habs]
        have : t - q * d = r := by omega
        rw [this]; omega
      · have hqd1 : |t - q * (d + 1)| = q - r := by
          rw [show t - q * (d + 1) = -(q - r) by rw [mul_add, mul_one]; omega,
            abs_neg, abs_of_nonneg (by omega)]
        rw [hqd1, habs]; omega
    · have hk1 : d + 1 ≤ k := by omega
      have hge : q * 1 ≤ q * (k - d) := by
        apply mul_le_mul_of_nonneg_left (by omega) hq.le
      have habs : |t - q * k| = q * (k - d) - r := by
        rw [show t - q * k = -(q * (k - d) - r) by rw [mul_sub]; omega, abs_neg,
          abs_of_nonneg (by omega)]
      rw [hquant]
      split
      · rw [abs_of_nonneg (by omega)]
        have : t - q * d = r := by omega
        rw [this, habs]
        have hgap : q * (k - d) ≥ q := by omega
        omega
      · have hqd1 : |t - q * (d + 1)| = q - r := by
          rw [show t - q * (d + 1) = -(q - r) by rw [mul_add, mul_one]; omega,
            abs_neg, abs_of_nonneg (by omega)]
        rw [hqd1, habs]
        rcases eq_or_lt_of_le hk1 with hkeq | hkgt
        · rw [← hkeq]; omega
        · have : q * 2 ≤ q * (k - d) := mul_le_mul_of_nonneg_left (by omega) hq.le
          omega
  · intro k hmin
    have hvald : |t - q * d| = r := by
      rw [show t - q * d = r by omega, abs_of_nonneg hr0]
    have hvald1 : |t - q * (d + 1)| = q - r := by
      rw [show t - q * (d + 1) = -(q - r) by rw [mul_add, mul_one]; omega,
        abs_neg, abs_of_nonneg (by omega)]
    rw [hquant] at hmin ⊢
    by_cases hle : r ≤ q - r
    · rw [if_pos hle] at hmin ⊢
      rcases le_or_lt d k with h | h
      · exact mul_le_mul_of_nonneg_left h hq.le
      · exfalso
        have hge : q * 1 ≤ q * (d - k) := mul_le_mul_of_nonneg_left (by omega) hq.le
        have habs : |t - q * k| = q * (d - k) + r := by
          rw [show t - q * k = q * (d - k) + r by rw [mul_sub]; omega,
            abs_of_nonneg (by omega)]
        rw [habs, hvald] at hmin
        omega
    · rw [if_neg hle] at hmin ⊢
      rcases le_or_lt (d + 1) k with h | h
      · exact mul_le_mul_of_nonneg_left h hq.le
      · exfalso
        have hge0 : 0 ≤ q * (d - k) := mul_nonneg hq.le (by omega)
        have habs : |t - q * k| = q * (d - k) + r := by
          rw [show t - q * k = q * (d - k) + r by rw [mul_sub]; omega,
            abs_of_nonneg (by omega)]
        rw [habs, hvald1] at hmin
        omega

/-- Claim C5, counterexample to the tie-break direction stated in the spec:
with grid 4, the time 2 is exactly halfway between the multiples 0 and 4, and
`quantize_fn` returns the lower multiple 0, not the upper multiple 4. -/
theorem C5_counterexample :
    quantize_fn 2 4 = 0 ∧ |(2 : Int) - 0| = |(4 : Int) - 2| ∧ quantize_fn 2 4 ≠ 4 := by
  refine ⟨by decide, by decide, by decide⟩

/-- Witness for `C5_quantize_fn_nearest` at `t = 7`, `q = 4`. -/
theorem C5_witness : (0 : Int) < 4 ∧ (4 : Int) ∣ quantize_fn 7 4 :=
  ⟨by decide, (C5_quantize_fn_nearest 7 4 (by decide)).1⟩

/-!
Quantization as applied to tracks and songs (ctsChirp.py).
-/

/-- Body of the note loop of ChirpTrack.quantize: snap the start with the note
grid and the duration with the duration grid, then never let a duration drop
below one duration-grid unit. -/
def quantize_note (qn qd : Int) (n : Note) : Note :=
  { n with
    start_time := quantize_fn n.start_time qn,
    duration :=
      let dur := quantize_fn n.duration qd
      if dur < qd then qd else dur }

/-- ctsChirp.ChirpTrack.quantize.  A falsy (`None` or `0`) grid argument keeps
the track's stored grid; the snapped track is returned together with the
per-note start and duration deltas that the caller folds into its
statistics. -/
def ChirpTrack.quantize (track : ChirpTrack) (qticks_notes qticks_durations : Option Int) :
    ChirpTrack × List Int × List Int :=
  let qn := if truthy qticks_notes then qticks_notes.getD 0 else track.qticks_notes
  let qd := if truthy qticks_durations then qticks_durations.getD 0 else track.qticks_durations
  let newNotes := track.notes.map (quantize_note qn qd)
  let note_start_changes := (track.notes.zip newNotes).map fun p => p.2.start_time - p.1.start_time
  let duration_changes := (track.notes.zip newNotes).map fun p => p.2.duration - p.1.duration
  let newOther := track.other.map fun m => { m with start_time := quantize_fn m.start_time qn }
  ({ track with
      qticks_notes := qn, qticks_durations := qd, notes := newNotes, other := newOther },
   note_start_changes, duration_changes)

/-- ctsChirp.ChirpTrack.is_quantized: every note start is a multiple of the
track's note grid and every duration a multiple of its duration grid. -/
def ChirpTrack.is_quantized (track : ChirpTrack) : Bool :=
  track.notes.all fun n =>
    pymod n.start_time track.qticks_notes == 0 && pymod n.duration track.qticks_durations == 0

/-- ctsChirp.ChirpTrack.is_polyphonic: some adjacent pair of notes overlaps. -/
def ChirpTrack.is_polyphonic (track : ChirpTrack) : Bool :=
  (track.notes.zip track.notes.tail).any fun p =>
    decide (p.2.start_time - p.1.start_time < p.1.duration)

/-- ctsChirp.ChirpSong.quantize.  Falsy grid arguments keep the song's stored
grids; every track is quantized with the song's grids, all song-level event
times are snapped with the note grid, and the per-note deltas are accumulated
into the two statistics counters (which the method re-creates on entry). -/
def ChirpSong.quantize (song : ChirpSong) (qticks_notes qticks_durations : Option Int) :
    ChirpSong :=
  let qn := if truthy qticks_notes then qticks_notes.getD 0 else song.qticks_notes
  let qd := if truthy qticks_durations then qticks_durations.getD 0 else song.qticks_durations
  let results := song.tracks.map fun t => ChirpTrack.quantize t (some qn) (some qd)
  { song with
    qticks_notes := qn,
    qticks_durations := qd,
    tracks := results.map (·.1),
    stats :=
      { noteStartDeltas := some (results.foldl (fun acc r => acc + (↑r.2.1 : Multiset Int)) 0),
        durationDeltas := some (results.foldl (fun acc r => acc + (↑r.2.2 : Multiset Int)) 0) },
    tempo_changes :=
      song.tempo_changes.map fun m => { m with start_time := quantize_fn m.start_time qn },
    time_signature_changes :=
      song.time_signature_changes.map fun m => { m with start_time := quantize_fn m.start_time qn },
    key_signature_changes :=
      song.key_signature_changes.map fun m => { m with start_time := quantize_fn m.start_time qn },
    other := song.other.map fun m => { m with start_time := quantize_fn m.start_time qn } }

/-- ctsChirp.ChirpSong.is_quantized: all tracks are quantized. -/
def ChirpSong.is_quantized (song : ChirpSong) : Bool :=
  song.tracks.all ChirpTrack.is_quantized

/-- ctsChirp.ChirpSong.is_polyphonic: some track is polyphonic. -/
def ChirpSong.is_polyphonic (song : ChirpSong) : Bool :=
  song.tracks.any ChirpTrack.is_polyphonic

/-!
Claims C2 and C3: behaviour of `quantize` with omitted grids, and idempotence.
-/

/-- Example song metadata used by the concrete test songs. -/
def exampleMetadata : SongMetadata :=
  { ppq := 960, name := "", composer := "", copyright := "",
    time_signature := ⟨0, 4, 4⟩, key_signature := ⟨0, "C"⟩, bpm := 112 }

/-- Concrete song for claim C2: one track with one note at tick 10, stored
note grid 7. -/
def c2songA : ChirpSong :=
  { metadata := exampleMetadata,
    qticks_notes := 7, qticks_durations := 7,
    tracks := [{ name := "lead", channel := 0,
                 notes := [{ note_num := 60, start_time := 10, duration := 10,
                             velocity := 100, tied := false }],
                 other := [], qticks_notes := 7, qticks_durations := 7 }],
    other := [], time_signature_changes := [⟨0, 4, 4⟩],
    key_signature_changes := [], tempo_changes := [],
    stats := { noteStartDeltas := none, durationDeltas := none } }

/-- The same song with a different stored note grid and identical note data. -/
def c2songB : ChirpSong := { c2songA with qticks_notes := 5 }

/-- Claim C2, counterexample.  `c2songA` and `c2songB` hold identical tracks
(identical note data), so an auto-discovered grid would be the same for both;
yet quantizing each with both grid arguments omitted yields different tracks,
because the snapping uses the grid values the songs already hold (7 vs 5). -/
theorem C2_counterexample :
    c2songA.tracks = c2songB.tracks ∧
    (ChirpSong.quantize c2songA none none).tracks ≠
      (ChirpSong.quantize c2songB none none).tracks := by
  refine ⟨by decide, by decide⟩

/-- Claim C2, corrected.  Calling `quantize` with both grid arguments omitted
performs no auto-discovery: it behaves exactly like passing the song's stored
grid values explicitly, and the stored grid fields are left as they were. -/
theorem C2_omitted_grids_use_stored (song : ChirpSong) :
    ChirpSong.quantize song none none =
      ChirpSong.quantize song (some song.qticks_notes) (some song.qticks_durations) ∧
    (ChirpSong.quantize song none none).qticks_notes = song.qticks_notes ∧
    (ChirpSong.quantize song none none).qticks_durations = song.qticks_durations := by
  refine ⟨?_, ?_, ?_⟩ <;>
    simp [ChirpSong.quantize, truthy, Option.getD, ite_self]

/-- The per-note snapping of `ChirpTrack.quantize` is a fixed point on its own
output when both grids are positive. -/
theorem quantize_note_idem {qn qd : Int} (hqn : 0 < qn) (hqd : 0 < qd) (n : Note) :
    quantize_note qn qd (quantize_note qn qd n) = quantize_note qn qd n := by
  unfold quantize_note
  have hstart : quantize_fn (quantize_fn n.start_time qn) qn = quantize_fn n.start_time qn :=
    quantize_fn_fixed hqn (quantize_fn_dvd n.start_time qn)
  have hdvd : qd ∣ (if quantize_fn n.duration qd < qd then qd else quantize_fn n.duration qd) := by
    split
    · exact dvd_refl qd
    · exact quantize_fn_dvd n.duration qd
  have hge : qd ≤ (if quantize_fn n.duration qd < qd then qd else quantize_fn n.duration qd) := by
    split
    · exact le_refl qd
    · omega
  have hfix : quantize_fn (if quantize_fn n.duration qd < qd then qd
      else quantize_fn n.duration qd) qd =
      (if quantize_fn n.duration qd < qd then qd else quantize_fn n.duration qd) :=
    quantize_fn_fixed hqd hdvd
  simp only [hstart, hfix]
  congr 1
  rw [if_neg (by omega)]

/-- After snapping, every note start is a multiple of the note grid and every
duration a positive multiple of the duration grid. -/
theorem quantize_note_quantized (qn qd : Int) (n : Note) :
    qn ∣ (quantize_note qn qd n).start_time ∧ qd ∣ (quantize_note qn qd n).duration ∧
      qd ≤ (quantize_note qn qd n).duration := by
  unfold quantize_note
  refine ⟨quantize_fn_dvd n.start_time qn, ?_, ?_⟩
  · dsimp only
    split
    · exact dvd_refl qd
    · exact quantize_fn_dvd n.duration qd
  · dsimp only
    split
    · exact le_refl qd
    · omega

/-- A track quantized twice with the same positive explicit grids equals the
track quantized once (the returned delta statistics aside). -/
theorem track_quantize_idem {qn qd : Int} (hqn : 0 < qn) (hqd : 0 < qd) (track : ChirpTrack) :
    (ChirpTrack.quantize (ChirpTrack.quantize track (some qn) (some qd)).1
        (some qn) (some qd)).1 =
      (ChirpTrack.quantize track (some qn) (some qd)).1 := by
  have htr : truthy (some qn) = true := by simp [truthy, hqn.ne']
  have htr2 : truthy (some qd) = true := by simp [truthy, hqd.ne']
  simp only [ChirpTrack.quantize, htr, htr2, if_pos, Option.getD]
  congr 1
  · rw [List.map_map]
    exact List.map_congr_left fun n _ => quantize_note_idem hqn hqd n
  · rw [List.map_map]
    refine List.map_congr_left fun m _ => ?_
    simp only [Function.comp]
    congr 1
    exact quantize_fn_fixed hqn (quantize_fn_dvd m.start_time qn)

/-- A track quantized with positive explicit grids satisfies `is_quantized`. -/
theorem track_quantize_is_quantized {qn qd : Int} (hqn : 0 < qn) (hqd : 0 < qd)
    (track : ChirpTrack) :
    (ChirpTrack.quantize track (some qn) (some qd)).1.is_quantized = true := by
  have htr : truthy (some qn) = true := by simp [truthy, hqn.ne']
  have htr2 : truthy (some qd) = true := by simp [truthy, hqd.ne']
  simp only [ChirpTrack.quantize, htr, htr2, if_pos, Option.getD, ChirpTrack.is_quantized]
  rw [List.all_eq_true]
  intro n hn
  obtain ⟨m, _, rfl⟩ := List.mem_map.1 hn
  obtain ⟨h1, h2, _⟩ := quantize_note_quantized qn qd m
  simp only [Bool.and_eq_true, beq_iff_eq]
  exact ⟨pymod_eq_zero_of_dvd hqn.ne' h1, pymod_eq_zero_of_dvd hqd.ne' h2⟩

/-- A song quantized with positive explicit grids satisfies `is_quantized`. -/
theorem song_quantize_is_quantized {qn qd : Int} (hqn : 0 < qn) (hqd : 0 < qd)
    (song : ChirpSong) :
    (ChirpSong.quantize song (some qn) (some qd)).is_quantized = true := by
  have htr : truthy (some qn) = true := by simp [truthy, hqn.ne']
  have htr2 : truthy (some qd) = true := by simp [truthy, hqd.ne']
  simp only [ChirpSong.quantize, htr, htr2, if_pos, Option.getD, ChirpSong.is_quantized]
  rw [List.all_eq_true]
  intro t ht
  rw [List.map_map] at ht
  obtain ⟨t0, _, rfl⟩ := List.mem_map.1 ht
  exact track_quantize_is_quantized hqn hqd t0

/-- Claim C3, corrected.  Quantizing a song twice with the same positive grids
leaves every field of the song unchanged relative to the first call except the
`stats` counters (which each call re-creates from the per-call deltas), and
`is_quantized` holds after the first call and still holds after the second. -/
theorem C3_quantize_idempotent_mod_stats (song : ChirpSong) (qn qd : Int)
    (hqn : 0 < qn) (hqd : 0 < qd) :
    ((ChirpSong.quantize song (some qn) (some qd)).quantize (some qn) (some qd)).tracks =
        (ChirpSong.quantize song (some qn) (some qd)).tracks ∧
    ((ChirpSong.quantize song (some qn) (some qd)).quantize (some qn) (some qd)).qticks_notes =
        (ChirpSong.quantize song (some qn) (some qd)).qticks_notes ∧
    ((ChirpSong.quantize song (some qn) (some qd)).quantize (some qn)
          (some qd)).qticks_durations =
        (ChirpSong.quantize song (some qn) (some qd)).qticks_durations ∧
    ((ChirpSong.quantize song (some qn) (some qd)).quantize (some qn) (some qd)).tempo_changes =
        (ChirpSong.quantize song (some qn) (some qd)).tempo_changes ∧
    ((ChirpSong.quantize song (some qn) (some qd)).quantize (some qn)
          (some qd)).time_signature_changes =
        (ChirpSong.quantize song (some qn) (some qd)).time_signature_changes ∧
    ((ChirpSong.quantize song (some qn) (some qd)).quantize (some qn)
          (some qd)).key_signature_changes =
        (ChirpSong.quantize song (some qn) (some qd)).key_signature_changes ∧
    ((ChirpSong.quantize song (some qn) (some qd)).quantize (some qn) (some qd)).other =
        (ChirpSong.quantize song (some qn) (some qd)).other ∧
    ((ChirpSong.quantize song (some qn) (some qd)).quantize (some qn) (some qd)).metadata =
        (ChirpSong.quantize song (some qn) (some qd)).metadata ∧
    (ChirpSong.quantize song (some qn) (some qd)).is_quantized = true ∧
    ((ChirpSong.quantize song (some qn) (some qd)).quantize (some qn)
        (some qd)).is_quantized = true := by
  have htr : truthy (some qn) = true := by simp [truthy, hqn.ne']
  have htr2 : truthy (some qd) = true := by simp [truthy, hqd.ne']
  have hfixEvent : ∀ t : Int, quantize_fn (quantize_fn t qn) qn = quantize_fn t qn :=
    fun t => quantize_fn_fixed hqn (quantize_fn_dvd t qn)
  refine ⟨?_, ?_, ?_, ?_, ?_, ?_, ?_, ?_, ?_, ?_⟩
  · simp only [ChirpSong.quantize, htr, htr2, if_pos, Option.getD, List.map_map]
    refine List.map_congr_left fun t _ => ?_
    simp only [Function.comp]
    exact track_quantize_idem hqn hqd t
  · simp only [ChirpSong.quantize, htr, htr2, if_pos, Option.getD]
  · simp only [ChirpSong.quantize, htr, htr2, if_pos, Option.getD]
  · simp only [ChirpSong.quantize, htr, htr2, if_pos, Option.getD]
    rw [List.map_map]
    refine List.map_congr_left fun m _ => ?_
    simp only [Function.comp]
    congr 1
    exact hfixEvent m.start_time
  · simp only [ChirpSong.quantize, htr, htr2, if_pos, Option.getD]
    rw [List.map_map]
    refine List.map_congr_left fun m _ => ?_
    simp only [Function.comp]
    congr 1
    exact hfixEvent m.start_time
  · simp only [ChirpSong.quantize, htr, htr2, if_pos, Option.getD]
    rw [List.map_map]
    refine List.map_congr_left fun m _ => ?_
    simp only [Function.comp]
    congr 1
    exact hfixEvent m.start_time
  · simp only [ChirpSong.quantize, htr, htr2, if_pos, Option.getD]
    rw [List.map_map]
    refine List.map_congr_left fun m _ => ?_
    simp only [Function.comp]
    congr 1
    exact hfixEvent m.start_time
  · simp only [ChirpSong.quantize, htr, htr2, if_pos, Option.getD]
  · exact song_quantize_is_quantized hqn hqd song
  · exact song_quantize_is_quantized hqn hqd _

/-- Concrete song for claim C3: one track with one note starting at tick 1, so
the first quantize call records a nonzero start delta in the statistics. -/
def c3song : ChirpSong :=
  { metadata := exampleMetadata,
    qticks_notes := 960, qticks_durations := 960,
    tracks := [{ name := "lead", channel := 0,
                 notes := [{ note_num := 60, start_time := 1, duration := 4,
                             velocity := 100, tied := false }],
                 other := [], qticks_notes := 960, qticks_durations := 960 }],
    other := [], time_signature_changes := [⟨0, 4, 4⟩],
    key_signature_changes := [], tempo_changes := [],
    stats := { noteStartDeltas := none, durationDeltas := none } }

/-- Claim C3, counterexample to literal state identity: the second quantize
call rebuilds the `stats` delta counters from the second call's (all-zero)
deltas, so the full song state after the second call differs from the state
after the first call. -/
theorem C3_counterexample :
    (ChirpSong.quantize c3song (some 4) (some 4)).quantize (some 4) (some 4) ≠
      ChirpSong.quantize c3song (some 4) (some 4) := by
  decide

/-- Witness for `C3_quantize_idempotent_mod_stats` at `c3song` with grids 4. -/
theorem C3_witness :
    (0 : Int) < 4 ∧
    ((ChirpSong.quantize c3song (some 4) (some 4)).quantize (some 4) (some 4)).tracks =
      (ChirpSong.quantize c3song (some 4) (some 4)).tracks :=
  ⟨by decide, (C3_quantize_idempotent_mod_stats c3song 4 4 (by decide) (by decide)).1⟩

/-!
Grid auto-discovery (ctsBase.find_quantization) and
ctsChirp.ChirpSong.estimate_quantization (claim C9).
-/

/-- Loop body of ctsBase.find_quantization.  The source's `note_value` starts
at 4 and doubles while `note_value <= 128`; it is encoded here as `4 * 2 ^ k`
so that the recursion is visibly bounded.  At each candidate grid the error is
compared with the previous candidate's: a zero error returns the candidate, a
worse error returns the previous candidate, and the triplet variant
(`test_quantization * 2 // 3`) is tried between the powers of two. -/
def find_quantization_go (time_series : List Int) (ppq : Int)
    (last_err last_q : Int) (k : Nat) : Except PyErr Int :=
  if h : 4 * 2 ^ k ≤ 128 then do
    let note_value : Int := (4 * 2 ^ k : Nat)
    let test_quantization := pydiv (ppq * 4) note_value
    let e ← objective_error time_series test_quantization
    if e = 0 then .ok test_quantization
    else if e > last_err then .ok last_q
    else do
      let test_quantization2 := pydiv (test_quantization * 2) 3
      let e2 ← objective_error time_series test_quantization2
      if e2 = 0 then .ok test_quantization2
      else if e2 > e then .ok test_quantization
      else find_quantization_go time_series ppq e2 test_quantization2 (k + 1)
  else .ok 1
termination_by 6 - k
decreasing_by
  have hk : k < 6 := by
    by_contra hk6
    have h64 : (2 : Nat) ^ 6 ≤ 2 ^ k := Nat.pow_le_pow_right (by omega) (by omega)
    simp [Nat.pow_succ] at h64
    omega
  omega

/-- ctsBase.find_quantization as declared: `find_quantization(time_series,
ppq)`.  Its first statement is `last_err = len(time_series) * ppq`, so the
first parameter must be the list of times and the second the int ppq. -/
def find_quantization (time_series : List Int) (ppq : Int) : Except PyErr Int :=
  find_quantization_go time_series ppq ((time_series.length : Int) * ppq) ppq 0

/-- ctsChirp.ChirpSong.estimate_quantization.  The source computes `tmp_notes`
and then evaluates `find_quantization(self.metadata.ppq, tmp_notes)`.  Python
binds the arguments positionally, so `time_series` is bound to the int
`self.metadata.ppq` and `ppq` to the list, and the first statement of
`find_quantization` evaluates `len(time_series)` — `len` of an int, which
raises `TypeError` before anything is computed or assigned.  The embedding
evaluates that first statement (`py_len` of the int value) and propagates its
error; the continuation after the bind is unreachable because `py_len` of an
`inl` value never succeeds.  (Were the arguments passed as declared, the method
would go on to call `find_duration_quantization` with three arguments — the
source's `find_duration_quantization(durations, qticks_note)` takes two,
another `TypeError` — and would then assign the discovered grids to
`self.qticks_notes` and `self.qticks_durations`, i.e. it is in any case written
to store the grids on the song rather than to be read-only.) -/
def ChirpSong.estimate_quantization (song : ChirpSong) :
    Except PyErr (ChirpSong × Int × Int) :=
  let _tmp_notes := (song.tracks.map fun t => t.notes.map Note.start_time).flatten
  (py_len (Sum.inl song.metadata.ppq)).bind fun _ =>
    .error (.typeError "unreachable: find_quantization is never entered successfully")

/-- Claim C9, corrected.  For every song (in particular every song with at
least one note), `estimate_quantization` does not return a grid pair: it raises
`TypeError`, because its call to `find_quantization` passes the ppq int where
the function expects the list of times. -/
theorem C9_estimate_quantization_type_error (song : ChirpSong)
    (_hnote : (song.tracks.map fun t => t.notes).flatten ≠ []) :
    song.estimate_quantization = .error (.typeError "object of type int has no len()") :=
  rfl

/-- Concrete song for claim C9: one track with one note. -/
def c9song : ChirpSong :=
  { metadata := exampleMetadata,
    qticks_notes := 960, qticks_durations := 960,
    tracks := [{ name := "lead", channel := 0,
                 notes := [{ note_num := 60, start_time := 480, duration := 480,
                             velocity := 100, tied := false }],
                 other := [], qticks_notes := 960, qticks_durations := 960 }],
    other := [], time_signature_changes := [⟨0, 4, 4⟩],
    key_signature_changes := [], tempo_changes := [],
    stats := { noteStartDeltas := none, durationDeltas := none } }

/-- Claim C9, counterexample: on a song with one note the method does not
return a `(note_grid, duration_grid)` pair at all — it raises `TypeError`. -/
theorem C9_counterexample :
    ChirpSong.estimate_quantization c9song =
      .error (.typeError "object of type int has no len()") ∧
    (ChirpSong.estimate_quantization c9song).toOption = none := by
  refine ⟨rfl, rfl⟩

/-- Witness for `C9_estimate_quantization_type_error` at `c9song`. -/
theorem C9_witness :
    (c9song.tracks.map fun t => t.notes).flatten ≠ [] ∧
    ChirpSong.estimate_quantization c9song =
      .error (.typeError "object of type int has no len()") :=
  ⟨by decide, C9_estimate_quantization_type_error c9song (by decide)⟩

/-!
Metric modulation (ctsChirp.py) — claim C1.
-/

/-- ctsChirp.ChirpTrack.modulate: scale the start times of the other events and
the start times and durations of the notes by `num / denom` with floor
division. -/
def ChirpTrack.modulate (track : ChirpTrack) (num denom : Int) : ChirpTrack :=
  { track with
    other := track.other.map fun m => { m with start_time := pydiv (m.start_time * num) denom },
    notes := track.notes.map fun n =>
      { n with start_time := pydiv (n.start_time * num) denom,
               duration := pydiv (n.duration * num) denom } }

/-- ctsChirp.ChirpSong.modulate.  The time-signature loop destructures each
entry as `t, n, d = ts` and rebuilds it as `TimeSignature(t, n*num, d*denom)` —
the start tick `t` is left unchanged.  After all the loops, the stored grids
are updated as `self.qticks_notes = (self.qticks_notes * n) // d` (and likewise
for durations), where `n` and `d` are whatever the time-signature loop left in
them: the numerator and denominator of the *last original time-signature
entry*, not the modulation factors.  If the time-signature list is empty the
loop never binds `n` and `d` and Python raises `NameError` at that line. -/
def ChirpSong.modulate (song : ChirpSong) (num denom : Int) : Except PyErr ChirpSong :=
  match song.time_signature_changes.getLast? with
  | none => .error (.nameError "name n is not defined")
  | some lastTs =>
      .ok { song with
        time_signature_changes := song.time_signature_changes.map fun ts =>
          { ts with num := ts.num * num, denom := ts.denom * denom },
        tempo_changes := song.tempo_changes.map fun tm =>
          { tm with start_time := pydiv (tm.start_time * num) denom,
                    bpm := pydiv (tm.bpm * num) denom },
        other := song.other.map fun m =>
          { m with start_time := pydiv (m.start_time * num) denom },
        tracks := song.tracks.map fun t => t.modulate num denom,
        qticks_notes := pydiv (song.qticks_notes * lastTs.num) lastTs.denom,
        qticks_durations := pydiv (song.qticks_durations * lastTs.num) lastTs.denom }

/-- Concrete song for claim C1: stored grids 480/240, two time signatures (the
second at tick 3840 with numerator 3), one tempo event and one note. -/
def c1song : ChirpSong :=
  { metadata := exampleMetadata,
    qticks_notes := 480, qticks_durations := 240,
    tracks := [{ name := "lead", channel := 0,
                 notes := [{ note_num := 60, start_time := 960, duration := 480,
                             velocity := 100, tied := false }],
                 other := [], qticks_notes := 480, qticks_durations := 240 }],
    other := [], time_signature_changes := [⟨0, 4, 4⟩, ⟨3840, 3, 4⟩],
    key_signature_changes := [], tempo_changes := [⟨0, 100⟩],
    stats := { noteStartDeltas := none, durationDeltas := none } }

/-- The value `modulate(c1song, 3, 2)` actually produces: note starts,
durations, tempo times and bpm are scaled by `3/2`, but the time-signature
start ticks stay at 0 and 3840, and the stored grids are multiplied by the last
time signature's original `3/4` (giving 360 and 180) instead of by `3/2`. -/
def c1modulated : ChirpSong :=
  { metadata := exampleMetadata,
    qticks_notes := 360, qticks_durations := 180,
    tracks := [{ name := "lead", channel := 0,
                 notes := [{ note_num := 60, start_time := 1440, duration := 720,
                             velocity := 100, tied := false }],
                 other := [], qticks_notes := 480, qticks_durations := 240 }],
    other := [], time_signature_changes := [⟨0, 12, 8⟩, ⟨3840, 9, 8⟩],
    key_signature_changes := [], tempo_changes := [⟨0, 150⟩],
    stats := { noteStartDeltas := none, durationDeltas := none } }

/-- Claim C1: evaluation at the failing input.  `modulate(c1song, 3, 2)` does
not multiply the stored grids by 3 and floor-divide by 2 (480 becomes 360, not
720, because the leaked loop variables `n`, `d` hold the last time signature's
3 and 4), and it does not scale the time-signature event start ticks (3840
stays 3840 instead of becoming 5760). -/
theorem C1_modulate_failing_input :
    ChirpSong.modulate c1song 3 2 = .ok c1modulated ∧
    c1modulated.qticks_notes ≠ pydiv (c1song.qticks_notes * 3) 2 ∧
    c1modulated.qticks_durations ≠ pydiv (c1song.qticks_durations * 3) 2 ∧
    c1modulated.time_signature_changes.map TimeSignature.start_time ≠
      c1song.time_signature_changes.map fun ts => pydiv (ts.start_time * 3) 2 := by
  refine ⟨by decide, by decide, by decide, by decide⟩

/-!
Polyphony removal (ctsChirp.ChirpTrack.remove_polyphony) — claim C4.
-/

/-- Loop of ChirpTrack.remove_polyphony over `self.notes[1:]`, carrying the
current `last` note.  A note with the same start as `last` is dropped (counted
deleted); a note starting inside `last` truncates `last`'s duration to the gap
(counted truncated); `last` is then emitted even when its duration became
non-positive (the code counts such a note as deleted but still appends it). -/
def remove_polyphony_go (last : Note) : List Note → List Note × Int × Int
  | [] => ([last], 0, 0)
  | n :: rest =>
    if n.start_time = last.start_time then
      let r := remove_polyphony_go last rest
      (r.1, r.2.1 + 1, r.2.2)
    else
      let last2 := if n.start_time < last.start_time + last.duration then
          { last with duration := n.start_time - last.start_time } else last
      let t_inc : Int := if n.start_time < last.start_time + last.duration then 1 else 0
      let d_inc : Int := if last2.duration ≤ 0 then 1 else 0
      let r := remove_polyphony_go n rest
      (last2 :: r.1, r.2.1 + d_inc, r.2.2 + t_inc)

/-- Sort key of the final `self.notes.sort(key=lambda n: (n.start_time,
-n.note_num))`. -/
abbrev noteSortLe : Note → Note → Prop :=
  lexLe2 Note.start_time (fun n => -n.note_num)

/-- ctsChirp.ChirpTrack.remove_polyphony.  `self.notes[0]` raises `IndexError`
on an empty track; otherwise the loop runs and the result is re-sorted by
`(start_time, -note_num)` with Python's stable sort.  Returns the updated track
and the `(deleted, truncated)` counters. -/
def ChirpTrack.remove_polyphony (track : ChirpTrack) :
    Except PyErr (ChirpTrack × Int × Int) :=
  match track.notes with
  | [] => .error (.indexError "list index out of range")
  | n0 :: rest =>
      let r := remove_polyphony_go n0 rest
      .ok ({ track with notes := List.insertionSort noteSortLe r.1 }, r.2.1, r.2.2)

/-- Invariants of the `remove_polyphony` loop on a start-sorted input with a
positive-duration current note and positive-duration remaining notes: the
emitted list starts at `last.start_time`, is nonempty, has strictly increasing
start times, adjacent notes do not overlap, and every emitted duration is
positive. -/
theorem remove_polyphony_go_facts (l : List Note) : ∀ (last : Note),
    (∀ m ∈ l, last.start_time ≤ m.start_time) →
    List.Pairwise (fun a b : Note => a.start_time ≤ b.start_time) l →
    0 < last.duration → (∀ m ∈ l, 0 < m.duration) →
    (remove_polyphony_go last l).1.head?.map Note.start_time = some last.start_time ∧
    (remove_polyphony_go last l).1 ≠ [] ∧
    List.Chain' (fun a b : Note => a.start_time + a.duration ≤ b.start_time)
      (remove_polyphony_go last l).1 ∧
    (∀ m ∈ (remove_polyphony_go last l).1, 0 < m.duration) ∧
    List.Chain' (fun a b : Note => a.start_time < b.start_time)
      (remove_polyphony_go last l).1 := by
  induction l with
  | nil =>
    intro last _ _ hdl _
    refine ⟨rfl, by simp [remove_polyphony_go], by simp [remove_polyphony_go], ?_,
      by simp [remove_polyphony_go]⟩
    intro m hm
    simp only [remove_polyphony_go, List.mem_singleton] at hm
    subst hm
    exact hdl
  | cons n rest ih =>
    intro last hst hp hdl hdall
    by_cases heq : n.start_time = last.start_time
    · have hrec := ih last (fun m hm => hst m (List.mem_cons_of_mem n hm))
        (List.Pairwise.of_cons hp) hdl (fun m hm => hdall m (List.mem_cons_of_mem n hm))
      simp only [remove_polyphony_go, if_pos heq]
      exact hrec
    · have hlt : last.start_time < n.start_time :=
        lt_of_le_of_ne (hst n (List.mem_cons_self n rest)) (Ne.symm heq)
      have hrest_ge : ∀ m ∈ rest, n.start_time ≤ m.start_time := fun m hm =>
        (List.pairwise_cons.1 hp).1 m hm
      obtain ⟨hhead, hne2, hchain, hdur, hstrict⟩ := ih n hrest_ge
        (List.Pairwise.of_cons hp) (hdall n (List.mem_cons_self n rest))
        (fun m hm => hdall m (List.mem_cons_of_mem n hm))
      simp only [remove_polyphony_go, if_neg heq]
      set last2 := if n.start_time < last.start_time + last.duration then
          { last with duration := n.start_time - last.start_time } else last with hlast2
      have hlast2_start : last2.start_time = last.start_time := by
        rw [hlast2]; split <;> rfl
      have hdur_eq : (({ last with duration := n.start_time - last.start_time } : Note)).duration
          = n.start_time - last.start_time := rfl
      have hlast2_dur_pos : 0 < last2.duration := by
        rw [hlast2]; split
        · rw [hdur_eq]; omega
        · exact hdl
      have hlast2_end : last2.start_time + last2.duration ≤ n.start_time := by
        rw [hlast2]; split
        · rw [hdur_eq]
          have : ({ last with duration := n.start_time - last.start_time } : Note).start_time
              = last.start_time := rfl
          rw [this]; omega
        · rename_i hov
          omega
      cases hout : (remove_polyphony_go n rest).1 with
      | nil => exact absurd hout hne2
      | cons hd1 tl1 =>
        rw [hout] at hhead hchain hdur hstrict
        have hd1_start : hd1.start_time = n.start_time := by
          simp only [List.head?, Option.map_some] at hhead
          injection hhead
        refine ⟨?_, by simp, ?_, ?_, ?_⟩
        · simp [List.head?, hlast2_start]
        · exact List.Chain'.cons (by rw [hd1_start]; exact hlast2_end) hchain
        · intro m hm
          rcases List.mem_cons.1 hm with hm1 | hm2
          · subst hm1; exact hlast2_dur_pos
          · exact hdur m hm2
        · exact List.Chain'.cons (by rw [hd1_start, hlast2_start]; exact hlt) hstrict

/-- Claim C4, corrected (positive input durations added as a hypothesis).  For
a track whose notes are sorted time-ascending and all have positive duration,
`remove_polyphony` succeeds and afterwards every adjacent pair of notes
satisfies `next.start_time ≥ prev.start_time + prev.duration`, and no note of
non-positive duration remains. -/
theorem C4_remove_polyphony_monophonic (track track2 : ChirpTrack)
    (deleted truncated : Int)
    (hsorted : List.Pairwise (fun a b : Note => a.start_time ≤ b.start_time) track.notes)
    (hdur : ∀ n ∈ track.notes, 0 < n.duration)
    (hok : ChirpTrack.remove_polyphony track = .ok (track2, deleted, truncated)) :
    List.Chain' (fun a b : Note => a.start_time + a.duration ≤ b.start_time) track2.notes ∧
    (∀ n ∈ track2.notes, 0 < n.duration) ∧ track2.notes ≠ [] := by
  cases hnotes : track.notes with
  | nil =>
    rw [ChirpTrack.remove_polyphony, hnotes] at hok
    exact absurd hok (by simp)
  | cons n0 rest =>
    rw [ChirpTrack.remove_polyphony, hnotes] at hok
    simp only [Except.ok.injEq, Prod.mk.injEq] at hok
    obtain ⟨htrack2, _, _⟩ := hok
    rw [hnotes] at hsorted hdur
    obtain ⟨_, _, hchain, hdurs, hstrict⟩ := remove_polyphony_go_facts rest n0
      (fun m hm => (List.pairwise_cons.1 hsorted).1 m hm)
      (List.Pairwise.of_cons hsorted)
      (hdur n0 (List.mem_cons_self n0 rest))
      (fun m hm => hdur m (List.mem_cons_of_mem n0 hm))
    haveI : IsTrans Note (fun a b : Note => a.start_time < b.start_time) :=
      ⟨fun _ _ _ h1 h2 => lt_trans h1 h2⟩
    have hpair : List.Pairwise (fun a b : Note => a.start_time < b.start_time)
        (remove_polyphony_go n0 rest).1 := List.chain'_iff_pairwise.1 hstrict
    have hsorted2 : List.Sorted noteSortLe (remove_polyphony_go n0 rest).1 :=
      hpair.imp fun h => Or.inl h
    have hsort_eq : List.insertionSort noteSortLe (remove_polyphony_go n0 rest).1 =
        (remove_polyphony_go n0 rest).1 := hsorted2.insertionSort_eq
    have hnotes2 : track2.notes = (remove_polyphony_go n0 rest).1 := by
      rw [← htrack2, hsort_eq]
    rw [hnotes2]
    refine ⟨hchain, hdurs, ?_⟩
    exact (remove_polyphony_go_facts rest n0
      (fun m hm => (List.pairwise_cons.1 hsorted).1 m hm)
      (List.Pairwise.of_cons hsorted)
      (hdur n0 (List.mem_cons_self n0 rest))
      (fun m hm => hdur m (List.mem_cons_of_mem n0 hm))).2.1

/-- Track used for the C4 counterexample: sorted, non-empty, but its first
note has duration 0. -/
def c4track : ChirpTrack :=
  { name := "lead", channel := 0,
    notes := [{ note_num := 60, start_time := 0, duration := 0,
                velocity := 100, tied := false },
              { note_num := 62, start_time := 5, duration := 3,
                velocity := 100, tied := false }],
    other := [], qticks_notes := 960, qticks_durations := 960 }

/-- Claim C4, counterexample to the claim as stated (which assumes only
non-emptiness and sortedness): the zero-duration note is counted as deleted
(the returned deleted counter is 1) but still appended, so a note of
non-positive duration remains after `remove_polyphony`. -/
theorem C4_counterexample :
    ChirpTrack.remove_polyphony c4track =
      .ok ({ c4track with notes := c4track.notes }, 1, 0) ∧
    ¬ ((({ c4track with notes := c4track.notes } : ChirpTrack)).notes.all
        fun n => decide (0 < n.duration)) = true := by
  refine ⟨by decide, by decide⟩

/-- Track used for the C4 witness: sorted, overlapping notes with positive
durations. -/
def c4goodTrack : ChirpTrack :=
  { name := "lead", channel := 0,
    notes := [{ note_num := 60, start_time := 0, duration := 960,
                velocity := 100, tied := false },
              { note_num := 62, start_time := 480, duration := 480,
                velocity := 100, tied := false }],
    other := [], qticks_notes := 960, qticks_durations := 960 }

/-- Witness for `C4_remove_polyphony_monophonic` at `c4goodTrack`: the first
note is truncated to duration 480 and the result is monophonic with positive
durations. -/
theorem C4_witness :
    List.Chain' (fun a b : Note => a.start_time + a.duration ≤ b.start_time)
      ({ c4goodTrack with
          notes := [{ note_num := 60, start_time := 0, duration := 480,
                      velocity := 100, tied := false },
                    { note_num := 62, start_time := 480, duration := 480,
                      velocity := 100, tied := false }] } : ChirpTrack).notes :=
  (C4_remove_polyphony_monophonic c4goodTrack _ 0 1 (by decide)
    (by decide) (by decide)).1

/-!
Beat/measure timeline (ctsChirp.ChirpSong.measures_and_beats) — claims C7, C8.
-/

/-- ctsChirp.ChirpSong.end_time: the end of the last note; Python's `max` over
an empty generator raises `ValueError`. -/
def ChirpSong.end_time (song : ChirpSong) : Except PyErr Int :=
  match (song.tracks.map fun t => t.notes.map fun n => n.start_time + n.duration).flatten with
  | [] => .error (.valueError "max() arg is an empty sequence")
  | x :: xs => .ok (xs.foldl max x)

/-- Sort order of `sorted(self.time_signature_changes)`: namedtuples compare
lexicographically on `(start_time, num, denom)`. -/
abbrev tsSortLe : TimeSignature → TimeSignature → Prop :=
  lexLe3 TimeSignature.start_time TimeSignature.num TimeSignature.denom

/-- One beat advance of the measures_and_beats loops: move the tick by
`(ppq * 4) // denom`, bump the beat and roll over into the next measure when
the beat exceeds the active numerator. -/
def mb_step (ppq : Int) (last : TimeSignature) (t m b : Int) : Int × Int × Int :=
  let t2 := t + pydiv (ppq * 4) last.denom
  let b2 := b + 1
  if b2 > last.num then (t2, m + 1, 1) else (t2, m, b2)

/-- A `while` loop of measures_and_beats: emit a Beat and advance while the
tick is below (`strict`) or not beyond (`¬strict`) the limit.  The fuel bounds
the number of iterations; running out of fuel models the source's
non-termination when the tick fails to advance. -/
def mb_loop (ppq : Int) (strict : Bool) (limit : Int) (last : TimeSignature) :
    Nat → Int → Int → Int → Except PyErr (List Beat × Int × Int × Int)
  | fuel, t, m, b =>
    if (if strict then t < limit else t ≤ limit) then
      match fuel with
      | 0 => .error .fuelExhausted
      | fuel + 1 =>
        let s := mb_step ppq last t m b
        (mb_loop ppq strict limit last fuel s.1 s.2.1 s.2.2).map fun r =>
          (⟨t, m, b⟩ :: r.1, r.2)
    else .ok ([], t, m, b)

/-- The `for s in time_signature_changes` loop of measures_and_beats: for each
change, emit beats strictly before its start under the previous signature,
then make it the active signature. -/
def mb_ts_fold (ppq : Int) (fuel : Nat) :
    List TimeSignature → TimeSignature → Int → Int → Int →
    Except PyErr (List Beat × TimeSignature × Int × Int × Int)
  | [], last, t, m, b => .ok ([], last, t, m, b)
  | s :: rest, last, t, m, b => do
    let r1 ← mb_loop ppq true s.start_time last fuel t m b
    let r2 ← mb_ts_fold ppq fuel rest s r1.2.1 r1.2.2.1 r1.2.2.2
    .ok (r1.1 ++ r2.1, r2.2)

/-- ctsChirp.ChirpSong.measures_and_beats.  Fails with
`ChiptuneSAKValueError("No starting time signature")` when the sorted
time-signature list is empty or does not start at tick 0; otherwise walks the
beat grid from tick 0 to the end of the last note.  (The source also records
the final measure count in `self.stats['Measures']`; that write-only statistic
is not part of the returned timeline and is not modelled.) -/
def ChirpSong.measures_and_beats (song : ChirpSong) (fuel : Nat) :
    Except PyErr (List Beat) := do
  let max_time ← song.end_time
  let tsc := List.insertionSort tsSortLe song.time_signature_changes
  match tsc with
  | [] => .error (.chiptuneSAKValueError "No starting time signature")
  | first :: _ =>
    if first.start_time ≠ 0 then
      .error (.chiptuneSAKValueError "No starting time signature")
    else do
      let r1 ← mb_ts_fold song.metadata.ppq fuel tsc first 0 1 1
      let r2 ← mb_loop song.metadata.ppq false max_time r1.2.1 fuel r1.2.2.1 r1.2.2.2.1
        r1.2.2.2.2
      .ok (r1.1 ++ r2.1)

/-- ctsChirp.ChirpSong.measure_starts: the start ticks of the beats with beat
number 1. -/
def ChirpSong.measure_starts (song : ChirpSong) (fuel : Nat) : Except PyErr (List Int) :=
  (song.measures_and_beats fuel).map fun beats =>
    (beats.filter fun mb => mb.beat == 1).map Beat.start_time

/-- Claim C7, corrected.  For a song with at least one note whose sorted
time-signature list is empty or whose earliest change does not start at tick 0,
`measures_and_beats` fails with `ChiptuneSAKValueError` (the library's value
error, not its quantization error) carrying the message "No starting time
signature", and never returns a defaulted timeline. -/
theorem C7_missing_time_signature_value_error (song : ChirpSong) (fuel : Nat) (mt : Int)
    (hmax : song.end_time = .ok mt)
    (hts : ∀ first, (List.insertionSort tsSortLe song.time_signature_changes).head? =
      some first → first.start_time ≠ 0) :
    song.measures_and_beats fuel =
      .error (.chiptuneSAKValueError "No starting time signature") := by
  rw [ChirpSong.measures_and_beats, hmax]
  cases htsc : List.insertionSort tsSortLe song.time_signature_changes with
  | nil => rfl
  | cons first rest =>
    have hne := hts first (by rw [htsc]; rfl)
    simp only [Bind.bind, Except.bind]
    rw [if_pos hne]

/-- Checks whether a result failed with the library's quantization error. -/
def isQuantizationError {α : Type} : Except PyErr α → Bool
  | .error (.chiptuneSAKQuantizationError _) => true
  | _ => false

/-- Concrete song for claim C7: one note, and a single time-signature change
that starts at tick 960 rather than 0. -/
def c7song : ChirpSong :=
  { metadata := exampleMetadata,
    qticks_notes := 960, qticks_durations := 960,
    tracks := [{ name := "lead", channel := 0,
                 notes := [{ note_num := 60, start_time := 0, duration := 960,
                             velocity := 100, tied := false }],
                 other := [], qticks_notes := 960, qticks_durations := 960 }],
    other := [], time_signature_changes := [⟨960, 4, 4⟩],
    key_signature_changes := [], tempo_changes := [],
    stats := { noteStartDeltas := none, durationDeltas := none } }

/-- Claim C7, counterexample to the stated error kind: the failure is the
library's value error, not its quantization error. -/
theorem C7_counterexample :
    c7song.measures_and_beats 100 =
      .error (.chiptuneSAKValueError "No starting time signature") ∧
    isQuantizationError (c7song.measures_and_beats 100) = false := by
  refine ⟨by decide, by decide⟩

/-- Witness for `C7_missing_time_signature_value_error` at `c7song`. -/
theorem C7_witness :
    c7song.measures_and_beats 100 =
      .error (.chiptuneSAKValueError "No starting time signature") :=
  C7_missing_time_signature_value_error c7song 100 960 (by decide)
    (fun first h => by
      have hsorted : List.insertionSort tsSortLe c7song.time_signature_changes =
          [⟨960, 4, 4⟩] := by decide
      rw [hsorted] at h
      injection h with h2
      rw [← h2]
      decide)

/-- Concrete song for claim C8: ppq 960, single time signature (0, 4, 4), one
note ending at tick 3840. -/
def c8song : ChirpSong :=
  { metadata := exampleMetadata,
    qticks_notes := 960, qticks_durations := 960,
    tracks := [{ name := "lead", channel := 0,
                 notes := [{ note_num := 60, start_time := 0, duration := 3840,
                             velocity := 100, tied := false }],
                 other := [], qticks_notes := 960, qticks_durations := 960 }],
    other := [], time_signature_changes := [⟨0, 4, 4⟩],
    key_signature_changes := [], tempo_changes := [],
    stats := { noteStartDeltas := none, durationDeltas := none } }

/-- The beat list `measures_and_beats` actually computes for `c8song`. -/
def c8beats : List Beat :=
  [⟨0, 1, 1⟩, ⟨960, 1, 2⟩, ⟨1920, 1, 3⟩, ⟨2880, 1, 4⟩, ⟨3840, 2, 1⟩]

/-- Claim C8, counterexample: with ppq 960 a beat is 960 ticks, so the loop
`while t <= 3840` emits 5 beats (ticks 0, 960, 1920, 2880, 3840), not 16. -/
theorem C8_counterexample :
    c8song.measures_and_beats 100 = .ok c8beats ∧ c8beats.length ≠ 16 := by
  refine ⟨by decide, by decide⟩

/-- Claim C8, corrected.  For ppq 960, a single time signature (0, 4, 4) and
last note end tick 3840, `measures_and_beats` yields exactly 5 Beat entries;
their beat numbers cycle 1,2,3,4 and restart at 1, and the measure number
increments after every 4th beat (the 5th beat is measure 2, beat 1). -/
theorem C8_beats :
    c8song.measures_and_beats 100 = .ok c8beats ∧
    c8beats.length = 5 ∧
    c8beats.map Beat.beat = [1, 2, 3, 4, 1] ∧
    c8beats.map Beat.measure = [1, 1, 1, 1, 2] := by
  refine ⟨by decide, by decide, by decide, by decide⟩

/-!
Measure population (ctsExportUtil.py) — claims C6 and C10.

ctsExportUtil imports the song module under its older name ctsSong; that module
is the ChirpSong model above.  Its `Note` constructor is applied there as
`Note(note_num, start, duration, velocity, tied)` (modelled from the spec data
model, which lists the Note fields in that order; the module itself is not
among the core sources).
-/

/-- Closed union of everything a measure can contain, replacing the source's
runtime `isinstance` dispatch in `sort_order`. -/
inductive MeasureElem where
  | note (n : Note)
  | rest (r : Rest)
  | marker (m : MeasureMarker)
  | timeSig (ts : TimeSignature)
  | keySig (ks : KeySignature)
  | tempo (tm : Tempo)
  | program (p : Program)
  | other (om : OtherMidi)
  deriving DecidableEq

/-- Start time of a measure element (the `c.start_time` of `sort_order`). -/
def elemStart : MeasureElem → Int
  | .note n => n.start_time
  | .rest r => r.start_time
  | .marker m => m.start_time
  | .timeSig ts => ts.start_time
  | .keySig ks => ks.start_time
  | .tempo tm => tm.start_time
  | .program p => p.start_time
  | .other om => om.start_time

/-- Priority component of `sort_order`: MeasureMarker 0, TimeSignature 1,
KeySignature 2, Tempo 3, Program 4, any other message 5, Note and Rest 10. -/
def elemPrio : MeasureElem → Int
  | .note _ => 10
  | .rest _ => 10
  | .marker _ => 0
  | .timeSig _ => 1
  | .keySig _ => 2
  | .tempo _ => 3
  | .program _ => 4
  | .other _ => 5

/-- ctsExportUtil.populate_measures.sort_order: the sort key
`(c.start_time, priority)`. -/
def sort_order (c : MeasureElem) : Int × Int := (elemStart c, elemPrio c)

/-- Comparison by `sort_order` keys (Python compares the key tuples
lexicographically). -/
abbrev elemLe : MeasureElem → MeasureElem → Prop := lexLe2 elemStart elemPrio

/-- The note-consuming `while` loop of populate_measures: consume notes that
begin before `end_`, inserting a Rest for any positive gap, truncating (and
tying) a note that crosses `end_` while recording the remainder as the new
carry.  Returns the collected items, the unconsumed notes, the carry and the
final `last_note_end`. -/
def measure_notes (end_ : Int) : List Note → Int → Option Note →
    List MeasureElem × List Note × Option Note × Int
  | [], lne, carry => ([], [], carry, lne)
  | n :: rest, lne, carry =>
    if n.start_time < end_ then
      if n.start_time + n.duration ≤ end_ then
        let r := measure_notes end_ rest (n.start_time + n.duration) carry
        ((if n.start_time - lne > 0 then [MeasureElem.rest ⟨lne, n.start_time - lne⟩] else []) ++
          MeasureElem.note n :: r.1, r.2)
      else
        let r := measure_notes end_ rest end_
          (some { n with duration := n.duration - (end_ - n.start_time) })
        ((if n.start_time - lne > 0 then [MeasureElem.rest ⟨lne, n.start_time - lne⟩] else []) ++
          MeasureElem.note { n with duration := end_ - n.start_time, tied := true } :: r.1,
         r.2)
    else ([], n :: rest, carry, lne)

/-- The carried-note handling at the top of each measure of populate_measures:
emit the measure marker, then re-stamp the carry to the measure start, fail on
a non-positive carry duration, and either emit a tied fragment spanning the
measure (keeping the remainder carried) or emit the rest of the carried note
whole. -/
def measure_carry (start end_ imeasure : Int) : Option Note →
    Except PyErr (List MeasureElem × Int × Option Note)
  | none => .ok ([.marker ⟨start, imeasure⟩], start, none)
  | some c0 =>
    if c0.duration ≤ 0 then
      .error (.chiptuneSAKValueError "Illegal carry note duration")
    else if start + c0.duration > end_ then
      .ok ([.marker ⟨start, imeasure⟩,
            .note { note_num := c0.note_num, start_time := start, duration := end_ - start,
                    velocity := 100, tied := true }],
           end_,
           some { c0 with start_time := start, duration := c0.duration - (end_ - start) })
    else
      .ok ([.marker ⟨start, imeasure⟩, .note { c0 with start_time := start }],
           start + c0.duration, none)

/-- The track- and song-level event collection of populate_measures for one
measure window `[start, end_)`: program changes are split out of the track's
other messages, key- and time-signature changes are re-stamped to the measure
start, tempo changes and other messages keep their ticks. -/
def measure_events (song : ChirpSong) (track : ChirpTrack) (start end_ : Int) :
    List MeasureElem :=
  (track.other.filterMap fun m =>
    if start ≤ m.start_time ∧ m.start_time < end_ then
      some (if m.msg.type = "program_change" then
          MeasureElem.program ⟨m.start_time, m.msg.program⟩
        else MeasureElem.other m)
    else none) ++
  (song.key_signature_changes.filterMap fun ks =>
    if start ≤ ks.start_time ∧ ks.start_time < end_ then
      some (MeasureElem.keySig ⟨start, ks.key⟩)
    else none) ++
  (song.time_signature_changes.filterMap fun ts =>
    if start ≤ ts.start_time ∧ ts.start_time < end_ then
      some (MeasureElem.timeSig ⟨start, ts.num, ts.denom⟩)
    else none) ++
  (song.tempo_changes.filterMap fun tm =>
    if start ≤ tm.start_time ∧ tm.start_time < end_ then
      some (MeasureElem.tempo ⟨tm.start_time, tm.bpm⟩)
    else none) ++
  (song.other.filterMap fun m =>
    if start ≤ m.start_time ∧ m.start_time < end_ then some (MeasureElem.other m) else none)

/-- One measure window of populate_measures: marker and carry handling, note
consumption, the closing rest, the event collection, and the final stable sort
by `sort_order`. -/
def measure_one (song : ChirpSong) (track : ChirpTrack) (start end_ imeasure : Int)
    (notes : List Note) (carry : Option Note) :
    Except PyErr (List MeasureElem × List Note × Option Note) := do
  let r1 ← measure_carry start end_ imeasure carry
  let r2 := measure_notes end_ notes r1.2.1 r1.2.2
  let closing : List MeasureElem :=
    if end_ - r2.2.2.2 > 0 then [.rest ⟨r2.2.2.2, end_ - r2.2.2.2⟩] else []
  let items := r1.1 ++ r2.1 ++ closing ++ measure_events song track start end_
  .ok (List.insertionSort elemLe items, r2.2.1, r2.2.2.1)

/-- The `for start, end in pairwise(measure_starts)` loop of
populate_measures. -/
def populate_go (song : ChirpSong) (track : ChirpTrack) :
    List Int → Int → List Note → Option Note → Except PyErr (List (List MeasureElem))
  | b1 :: b2 :: rest, imeasure, notes, carry => do
    let r ← measure_one song track b1 b2 imeasure notes carry
    let ms ← populate_go song track (b2 :: rest) (imeasure + 1) r.2.1 r.2.2
    .ok (r.1 :: ms)
  | _, _, _, _ => .ok []

/-- ctsExportUtil.populate_measures: compute the measure starts, append the
synthetic closing boundary `2 * measure_starts[-1] - measure_starts[-2]`, and
fill each consecutive window. -/
def populate_measures (song : ChirpSong) (track : ChirpTrack) (fuel : Nat) :
    Except PyErr (List (List MeasureElem)) := do
  let measure_starts ← song.measure_starts fuel
  let last1 ← pyGet measure_starts (-1)
  let last2 ← pyGet measure_starts (-2)
  populate_go song track (measure_starts ++ [2 * last1 - last2]) 1 track.notes none

/-- ctsExportUtil.count_notes: number of Note elements in a measure. -/
def count_notes (measure : List MeasureElem) : Nat :=
  (measure.filter fun e => match e with | .note _ => true | _ => false).length

/-- The generator `all(count_notes(m[-1]) == 0 for m in measures_list)` of
trim_measures: short-circuiting, and `m[-1]` raises `IndexError` on an empty
measure list. -/
def all_last_no_notes : List (List (List MeasureElem)) → Except PyErr Bool
  | [] => .ok true
  | m :: rest =>
    match m.getLast? with
    | none => .error (.indexError "list index out of range")
    | some lastMeasure =>
      if count_notes lastMeasure = 0 then all_last_no_notes rest else .ok false

/-- ctsExportUtil.trim_measures: pop the last measure of every track while all
the last measures are note-free.  The fuel bounds the `while`; with no tracks
the source loops forever, which the fuel turns into an error. -/
def trim_measures (fuel : Nat) (measures_list : List (List (List MeasureElem))) :
    Except PyErr (List (List (List MeasureElem))) :=
  match fuel with
  | 0 => .error .fuelExhausted
  | fuel + 1 => do
    let cond ← all_last_no_notes measures_list
    if cond then trim_measures fuel (measures_list.map fun m => m.dropLast)
    else .ok measures_list

/-- ctsExportUtil.get_measures: populate every track, then trim the trailing
note-free measures. -/
def get_measures (song : ChirpSong) (fuel : Nat) :
    Except PyErr (List (List (List MeasureElem))) := do
  let all_measures ← song.tracks.mapM fun t => populate_measures song t fuel
  trim_measures fuel all_measures

/-- Claim C10, confirmed.  When the beat timeline contains exactly one
measure-start tick (all notes end before the second measure begins), the
synthetic-boundary computation `measure_starts[-2]` is an out-of-range access,
so `get_measures` on a song with at least one track fails with `IndexError`
instead of returning a one-measure result. -/
theorem C10_get_measures_index_error (song : ChirpSong) (fuel : Nat) (t0 : ChirpTrack)
    (rest : List ChirpTrack) (x : Int)
    (htracks : song.tracks = t0 :: rest)
    (hstarts : song.measure_starts fuel = .ok [x]) :
    get_measures song fuel = .error (.indexError "list index out of range") := by
  have h1 : pyGet [x] (-1) = .ok x := rfl
  have h2 : pyGet [x] (-2) = .error (.indexError "list index out of range") := rfl
  have hpop : populate_measures song t0 fuel =
      .error (.indexError "list index out of range") := by
    rw [populate_measures, hstarts]
    simp only [Bind.bind, Except.bind, h1, h2]
  rw [get_measures, htracks]
  simp only [List.mapM_cons, Bind.bind, Except.bind, hpop]

/-- Concrete song for the C10 witness: its only note ends at tick 960, well
before the second measure would begin at tick 3840, so the beat timeline has a
single beat-1 entry. -/
def c10song : ChirpSong :=
  { metadata := exampleMetadata,
    qticks_notes := 960, qticks_durations := 960,
    tracks := [{ name := "lead", channel := 0,
                 notes := [{ note_num := 60, start_time := 0, duration := 960,
                             velocity := 100, tied := false }],
                 other := [], qticks_notes := 960, qticks_durations := 960 }],
    other := [], time_signature_changes := [⟨0, 4, 4⟩],
    key_signature_changes := [], tempo_changes := [],
    stats := { noteStartDeltas := none, durationDeltas := none } }

/-- Witness for `C10_get_measures_index_error` at `c10song`. -/
theorem C10_witness :
    get_measures c10song 100 = .error (.indexError "list index out of range") :=
  C10_get_measures_index_error c10song 100
    { name := "lead", channel := 0,
      notes := [{ note_num := 60, start_time := 0, duration := 960,
                  velocity := 100, tied := false }],
      other := [], qticks_notes := 960, qticks_durations := 960 }
    [] 0 (by decide) (by decide)

/-!
Properties of the measure sort (claim C6).
-/

theorem elemPrio_nonneg (e : MeasureElem) : 0 ≤ elemPrio e := by
  cases e <;> simp [elemPrio]

/-- A measure marker at the window start compares `≤` to every element whose
start is not before the window start. -/
theorem marker_elemLe {start imeasure : Int} {b : MeasureElem}
    (hb : start ≤ elemStart b) :
    elemLe (.marker ⟨start, imeasure⟩) b := by
  have h1 : elemStart (.marker ⟨start, imeasure⟩) = start := rfl
  have h2 : elemPrio (.marker ⟨start, imeasure⟩) = 0 := rfl
  have hprio := elemPrio_nonneg b
  unfold elemLe lexLe2
  rw [h1, h2]
  omega

/-- If the head of the unsorted list compares `≤` to all other elements, the
stable insertion sort keeps it first. -/
theorem insertionSort_head_of_min {α : Type} (r : α → α → Prop) [DecidableRel r]
    (a : α) (l : List α) (h : ∀ b ∈ l, r a b) :
    (List.insertionSort r (a :: l)).head? = some a := by
  show (List.orderedInsert r a (List.insertionSort r l)).head? = some a
  cases hs : List.insertionSort r l with
  | nil => rfl
  | cons b tl =>
    have hb : b ∈ l := (List.mem_insertionSort r).1 (hs ▸ List.mem_cons_self b tl)
    rw [List.orderedInsert, if_pos (h b hb)]
    rfl

/-- Inserting into a list with `orderedInsert` preserves, for each key value,
the subsequence of elements carrying that key: the elements skipped before the
insertion point compare strictly below the inserted element and so cannot share
its key. -/
theorem orderedInsert_filter_key {α : Type} (f g : α → Int) (a : α) (l : List α)
    (k : Int × Int) :
    (List.orderedInsert (lexLe2 f g) a l).filter (fun c => decide ((f c, g c) = k)) =
      if (f a, g a) = k then a :: l.filter (fun c => decide ((f c, g c) = k))
      else l.filter (fun c => decide ((f c, g c) = k)) := by
  induction l with
  | nil =>
    rw [List.orderedInsert]
    by_cases hk : (f a, g a) = k
    · rw [if_pos hk]
      simp [List.filter, hk]
    · rw [if_neg hk]
      simp [List.filter, hk]
  | cons b tl ih =>
    rw [List.orderedInsert]
    by_cases hr : lexLe2 f g a b
    · rw [if_pos hr]
      by_cases hk : (f a, g a) = k
      · rw [if_pos hk]
        simp [List.filter, hk]
      · rw [if_neg hk]
        simp [List.filter, hk]
    · rw [if_neg hr]
      have hne2 : (f b, g b) ≠ (f a, g a) := by
        intro hcon
        rw [Prod.mk.injEq] at hcon
        unfold lexLe2 at hr
        omega
      by_cases hbk : (f b, g b) = k
      · have hak : (f a, g a) ≠ k := fun hak => hne2 (hbk.trans hak.symm)
        simp [List.filter_cons, hbk, hak, ih]
      · by_cases hak : (f a, g a) = k
        · simp [List.filter_cons, hbk, hak, ih]
        · simp [List.filter_cons, hbk, hak, ih]

/-- Stability of the measure sort, in filter form: for every key value, the
sorted list contains exactly the elements with that key in their original
relative order. -/
theorem insertionSort_filter_key {α : Type} (f g : α → Int) (l : List α) (k : Int × Int) :
    (List.insertionSort (lexLe2 f g) l).filter (fun c => decide ((f c, g c) = k)) =
      l.filter (fun c => decide ((f c, g c) = k)) := by
  induction l with
  | nil => rfl
  | cons a tl ih =>
    show (List.orderedInsert (lexLe2 f g) a (List.insertionSort (lexLe2 f g) tl)).filter
        (fun c => decide ((f c, g c) = k)) = _
    rw [orderedInsert_filter_key, ih]
    by_cases hk : (f a, g a) = k
    · rw [if_pos hk]
      simp [List.filter_cons, hk]
    · rw [if_neg hk]
      simp [List.filter_cons, hk]

/-- Invariants of the note-consuming loop over a window ending at `end_`, for
a start-sorted list of positive-duration notes not starting before `b1` and a
running `last_note_end` not before `b1`: every collected item starts at `b1` or
later, the unconsumed notes start at `end_` or later, stay sorted and keep
positive durations, and the final `last_note_end` is still at `b1` or later. -/
theorem measure_notes_facts (end_ b1 : Int) (notes : List Note) : ∀ (lne : Int)
    (carry : Option Note),
    b1 ≤ lne → b1 ≤ end_ →
    (∀ n ∈ notes, b1 ≤ n.start_time) →
    (∀ n ∈ notes, 0 < n.duration) →
    List.Pairwise (fun a b : Note => a.start_time ≤ b.start_time) notes →
    (∀ e ∈ (measure_notes end_ notes lne carry).1, b1 ≤ elemStart e) ∧
    (∀ n ∈ (measure_notes end_ notes lne carry).2.1, end_ ≤ n.start_time) ∧
    List.Pairwise (fun a b : Note => a.start_time ≤ b.start_time)
      (measure_notes end_ notes lne carry).2.1 ∧
    (∀ n ∈ (measure_notes end_ notes lne carry).2.1, 0 < n.duration) ∧
    b1 ≤ (measure_notes end_ notes lne carry).2.2.2 := by
  induction notes with
  | nil =>
    intro lne carry hlne _ _ _ _
    exact ⟨by simp [measure_notes], by simp [measure_notes], by simp [measure_notes],
      by simp [measure_notes], by simpa [measure_notes] using hlne⟩
  | cons n rest ih =>
    intro lne carry hlne hend hges hdur hsorted
    have hn_ge : b1 ≤ n.start_time := hges n (List.mem_cons_self n rest)
    have hn_dur : 0 < n.duration := hdur n (List.mem_cons_self n rest)
    have hrest_ges : ∀ m ∈ rest, b1 ≤ m.start_time := fun m hm =>
      hges m (List.mem_cons_of_mem n hm)
    have hrest_dur : ∀ m ∈ rest, 0 < m.duration := fun m hm =>
      hdur m (List.mem_cons_of_mem n hm)
    have hrest_sorted := List.Pairwise.of_cons hsorted
    have hrest_after : ∀ m ∈ rest, n.start_time ≤ m.start_time := fun m hm =>
      (List.pairwise_cons.1 hsorted).1 m hm
    by_cases hlt : n.start_time < end_
    · by_cases hfit : n.start_time + n.duration ≤ end_
      · obtain ⟨ih1, ih2, ih3, ih4, ih5⟩ := ih (n.start_time + n.duration) carry
          (by omega) hend hrest_ges hrest_dur hrest_sorted
        simp only [measure_notes, if_pos hlt, if_pos hfit]
        refine ⟨?_, ih2, ih3, ih4, ih5⟩
        intro e he
        rcases List.mem_append.1 he with hga | hcons
        · split at hga
          · rcases List.mem_singleton.1 hga with rfl
            simpa [elemStart] using hlne
          · exact absurd hga (List.not_mem_nil e)
        · rcases List.mem_cons.1 hcons with rfl | hr
          · simpa [elemStart] using hn_ge
          · exact ih1 e hr
      · obtain ⟨ih1, ih2, ih3, ih4, ih5⟩ := ih end_
          (some { n with duration := n.duration - (end_ - n.start_time) })
          hend hend hrest_ges hrest_dur hrest_sorted
        simp only [measure_notes, if_pos hlt, if_neg hfit]
        refine ⟨?_, ih2, ih3, ih4, ih5⟩
        intro e he
        rcases List.mem_append.1 he with hga | hcons
        · split at hga
          · rcases List.mem_singleton.1 hga with rfl
            simpa [elemStart] using hlne
          · exact absurd hga (List.not_mem_nil e)
        · rcases List.mem_cons.1 hcons with rfl | hr
          · simpa [elemStart] using hn_ge
          · exact ih1 e hr
    · simp only [measure_notes, if_neg hlt]
      refine ⟨by simp, ?_, hsorted, hdur, hlne⟩
      intro m hm
      rcases List.mem_cons.1 hm with rfl | hr
      · omega
      · have := hrest_after m hr
        omega

/-- On success, the carry handling emits the measure marker first, every other
emitted element starts at the window start, and the resulting `last_note_end`
is not before the window start. -/
theorem measure_carry_facts (start end_ imeasure : Int) (carry : Option Note)
    (items : List MeasureElem) (lne : Int) (carry2 : Option Note)
    (hend : start ≤ end_)
    (hok : measure_carry start end_ imeasure carry = .ok (items, lne, carry2)) :
    (∃ tl, items = MeasureElem.marker ⟨start, imeasure⟩ :: tl ∧
      ∀ e ∈ tl, start ≤ elemStart e) ∧ start ≤ lne := by
  cases carry with
  | none =>
    rw [measure_carry] at hok
    simp only [Except.ok.injEq, Prod.mk.injEq] at hok
    obtain ⟨h1, h2, _⟩ := hok
    refine ⟨⟨[], h1.symm, by simp⟩, by omega⟩
  | some c0 =>
    rw [measure_carry] at hok
    by_cases hd : c0.duration ≤ 0
    · rw [if_pos hd] at hok
      exact absurd hok (by simp)
    · rw [if_neg hd] at hok
      by_cases hover : start + c0.duration > end_
      · rw [if_pos hover] at hok
        simp only [Except.ok.injEq, Prod.mk.injEq] at hok
        obtain ⟨h1, h2, _⟩ := hok
        refine ⟨⟨_, h1.symm, ?_⟩, by omega⟩
        intro e he
        rcases List.mem_singleton.1 he with rfl
        simp [elemStart]
      · rw [if_neg hover] at hok
        simp only [Except.ok.injEq, Prod.mk.injEq] at hok
        obtain ⟨h1, h2, _⟩ := hok
        refine ⟨⟨_, h1.symm, ?_⟩, by omega⟩
        intro e he
        rcases List.mem_singleton.1 he with rfl
        simp [elemStart]

/-- Every event collected from the track- and song-level lists for the window
`[start, end_)` starts at `start` or later. -/
theorem measure_events_start_ge (song : ChirpSong) (track : ChirpTrack)
    (start end_ : Int) :
    ∀ e ∈ measure_events song track start end_, start ≤ elemStart e := by
  intro e he
  unfold measure_events at he
  rcases List.mem_append.1 he with he1 | he5
  rcases List.mem_append.1 he1 with he2 | he4
  rcases List.mem_append.1 he2 with he3 | heTs
  rcases List.mem_append.1 he3 with heTrack | heKs
  · obtain ⟨m, _, hm⟩ := List.mem_filterMap.1 heTrack
    split at hm
    · rename_i hcond
      split at hm <;> (injection hm with hm2; rw [← hm2]; simpa [elemStart] using hcond.1)
    · exact absurd hm (by simp)
  · obtain ⟨ks, _, hm⟩ := List.mem_filterMap.1 heKs
    split at hm
    · injection hm with hm2
      rw [← hm2]
      simp [elemStart]
    · exact absurd hm (by simp)
  · obtain ⟨ts, _, hm⟩ := List.mem_filterMap.1 heTs
    split at hm
    · injection hm with hm2
      rw [← hm2]
      simp [elemStart]
    · exact absurd hm (by simp)
  · obtain ⟨tm, _, hm⟩ := List.mem_filterMap.1 he4
    split at hm
    · rename_i hcond
      injection hm with hm2
      rw [← hm2]
      simpa [elemStart] using hcond.1
    · exact absurd hm (by simp)
  · obtain ⟨m, _, hm⟩ := List.mem_filterMap.1 he5
    split at hm
    · rename_i hcond
      injection hm with hm2
      rw [← hm2]
      simpa [elemStart] using hcond.1
    · exact absurd hm (by simp)

/-- On success, a populated measure window starts with its measure marker, is
sorted by `sort_order`, and hands the remaining notes on with their invariants:
they start at the window end or later, stay sorted, and keep positive
durations. -/
theorem measure_one_facts (song : ChirpSong) (track : ChirpTrack)
    (start end_ imeasure : Int) (notes : List Note) (carry : Option Note)
    (sortedM : List MeasureElem) (notes2 : List Note) (carry2 : Option Note)
    (hlt : start < end_)
    (hges : ∀ n ∈ notes, start ≤ n.start_time)
    (hdur : ∀ n ∈ notes, 0 < n.duration)
    (hsorted : List.Pairwise (fun a b : Note => a.start_time ≤ b.start_time) notes)
    (hok : measure_one song track start end_ imeasure notes carry =
      .ok (sortedM, notes2, carry2)) :
    sortedM.head? = some (.marker ⟨start, imeasure⟩) ∧
    List.Sorted elemLe sortedM ∧
    (∀ n ∈ notes2, end_ ≤ n.start_time) ∧
    List.Pairwise (fun a b : Note => a.start_time ≤ b.start_time) notes2 ∧
    (∀ n ∈ notes2, 0 < n.duration) := by
  rw [measure_one] at hok
  cases hcarry : measure_carry start end_ imeasure carry with
  | error e =>
    rw [hcarry] at hok
    exact absurd hok (by simp [Bind.bind, Except.bind])
  | ok r1 =>
    rw [hcarry] at hok
    simp only [Bind.bind, Except.bind, Except.ok.injEq, Prod.mk.injEq] at hok
    obtain ⟨hsm, hn2, _⟩ := hok
    obtain ⟨⟨tl, htl, htl_ge⟩, hlne⟩ := measure_carry_facts start end_ imeasure carry
      r1.1 r1.2.1 r1.2.2 hlt.le hcarry
    obtain ⟨mn1, mn2, mn3, mn4, mn5⟩ := measure_notes_facts end_ start notes r1.2.1 r1.2.2
      hlne hlt.le hges hdur hsorted
    rw [← hn2]
    refine ⟨?_, ?_, mn2, mn3, mn4⟩
    · rw [← hsm, htl]
      simp only [List.cons_append]
      apply insertionSort_head_of_min
      intro b hb
      apply marker_elemLe
      rcases List.mem_append.1 hb with hb1 | hbev
      · rcases List.mem_append.1 hb1 with hb2 | hbcl
        · rcases List.mem_append.1 hb2 with hbtl | hbmn
          · exact htl_ge b hbtl
          · exact mn1 b hbmn
        · revert hbcl
          split
          · intro hbcl
            rcases List.mem_singleton.1 hbcl with rfl
            simpa [elemStart] using mn5
          · intro hbcl
            exact absurd hbcl (List.not_mem_nil b)
      · exact measure_events_start_ge song track start end_ b hbev
    · rw [← hsm]
      exact List.sorted_insertionSort elemLe _

/-- Invariants of the measure loop over the boundary list: on success it emits
one measure per consecutive boundary pair, and the i-th measure (counting from
the given starting measure number) begins with the marker of the i-th boundary
and is sorted by `sort_order`. -/
theorem populate_go_facts (song : ChirpSong) (track : ChirpTrack) :
    ∀ (bounds : List Int) (imeasure : Int) (notes : List Note) (carry : Option Note)
      (ms : List (List MeasureElem)),
    populate_go song track bounds imeasure notes carry = .ok ms →
    List.Pairwise (fun a b : Int => a < b) bounds →
    (∀ b0, bounds.head? = some b0 → ∀ n ∈ notes, b0 ≤ n.start_time) →
    (∀ n ∈ notes, 0 < n.duration) →
    List.Pairwise (fun a b : Note => a.start_time ≤ b.start_time) notes →
    ms.length = bounds.length - 1 ∧
    ∀ (i : Nat) (hi : i < ms.length) (hbi : i < bounds.length),
      ms[i].head? = some (MeasureElem.marker ⟨bounds[i], imeasure + (i : Int)⟩) ∧
      List.Sorted elemLe ms[i] := by
  intro bounds
  induction bounds with
  | nil =>
    intro imeasure notes carry ms hok _ _ _ _
    have h2 : Except.ok ([] : List (List MeasureElem)) = Except.ok ms := hok
    have hms : ms = [] := by
      injection h2 with h3
      exact h3.symm
    subst hms
    exact ⟨rfl, fun i hi _ => absurd hi (by simp)⟩
  | cons b1 tail ih =>
    cases tail with
    | nil =>
      intro imeasure notes carry ms hok _ _ _ _
      have h2 : Except.ok ([] : List (List MeasureElem)) = Except.ok ms := hok
      have hms : ms = [] := by
        injection h2 with h3
        exact h3.symm
      subst hms
      exact ⟨rfl, fun i hi _ => absurd hi (by simp)⟩
    | cons b2 rest =>
      intro imeasure notes carry ms hok hpair hhead hdur hsorted
      rw [populate_go] at hok
      cases hone : measure_one song track b1 b2 imeasure notes carry with
      | error e =>
        rw [hone] at hok
        simp only [Bind.bind, Except.bind] at hok
        exact absurd hok (by simp)
      | ok r =>
        rw [hone] at hok
        simp only [Bind.bind, Except.bind] at hok
        cases hgo : populate_go song track (b2 :: rest) (imeasure + 1) r.2.1 r.2.2 with
        | error e =>
          rw [hgo] at hok
          simp only [Except.bind] at hok
          exact absurd hok (by simp)
        | ok ms2 =>
          rw [hgo] at hok
          simp only [Except.bind, Except.ok.injEq] at hok
          subst hok
          have hb12 : b1 < b2 :=
            (List.pairwise_cons.1 hpair).1 b2 (List.mem_cons_self b2 rest)
          obtain ⟨hmark, hsort, hn2ge, hn2sorted, hn2dur⟩ := measure_one_facts song track
            b1 b2 imeasure notes carry r.1 r.2.1 r.2.2 hb12
            (hhead b1 rfl) hdur hsorted hone
          obtain ⟨ihlen, ihidx⟩ := ih (imeasure + 1) r.2.1 r.2.2 ms2 hgo
            (List.Pairwise.of_cons hpair)
            (fun b0 hb0 => by
              injection hb0 with hb0
              rw [← hb0]
              exact hn2ge)
            hn2dur hn2sorted
          constructor
          · simp only [List.length_cons]
            simp only [List.length_cons] at ihlen
            omega
          · intro i hi hbi
            cases i with
            | zero =>
              simp only [List.getElem_cons_zero]
              refine ⟨?_, hsort⟩
              rw [hmark]
              norm_num
            | succ j =>
              have hj : j < ms2.length := by
                simp only [List.length_cons] at hi
                omega
              have hbj : j < (b2 :: rest).length := by
                simp only [List.length_cons] at hbi
                omega
              obtain ⟨ihm, ihs⟩ := ihidx j hj hbj
              simp only [List.getElem_cons_succ]
              refine ⟨?_, ihs⟩
              rw [ihm]
              have harith : imeasure + 1 + (j : Int) = imeasure + ((j + 1 : Nat) : Int) := by
                push_cast
                ring
              rw [harith]

/-- Inversion of the source's `measure_starts[-1]`: success means the list is
nonempty and the value is its last element. -/
theorem pyGet_neg_one_ok {l : List Int} {v : Int} (h : pyGet l (-1) = .ok v) :
    ∃ _hl : 0 < l.length, v = l.get ⟨l.length - 1, by omega⟩ := by
  have hneg : ((-1 : Int) < 0) := by norm_num
  simp only [pyGet, if_pos hneg] at h
  split at h
  · rename_i hcond
    injection h with h2
    have hlen : 0 < l.length := by omega
    refine ⟨hlen, ?_⟩
    rw [← h2]
    simp only [List.get_eq_getElem]
    congr 1
    omega
  · exact absurd h (by simp)

/-- Inversion of the source's `measure_starts[-2]`: success means the list has
at least two elements and the value is the second-to-last one. -/
theorem pyGet_neg_two_ok {l : List Int} {v : Int} (h : pyGet l (-2) = .ok v) :
    ∃ _hl : 2 ≤ l.length, v = l.get ⟨l.length - 2, by omega⟩ := by
  have hneg : ((-2 : Int) < 0) := by norm_num
  simp only [pyGet, if_pos hneg] at h
  split at h
  · rename_i hcond
    injection h with h2
    have hlen : 2 ≤ l.length := by omega
    refine ⟨hlen, ?_⟩
    rw [← h2]
    simp only [List.get_eq_getElem]
    congr 1
    omega
  · exact absurd h (by simp)

/-- In a strictly increasing list every element is at most the last one. -/
theorem le_last_of_pairwise_lt {l : List Int} (hinc : List.Pairwise (· < ·) l)
    (hlen : 0 < l.length) (x : Int) (hx : x ∈ l) :
    x ≤ l.get ⟨l.length - 1, by omega⟩ := by
  obtain ⟨i, hi⟩ := List.mem_iff_get.1 hx
  rcases lt_or_eq_of_le (Nat.le_sub_one_of_lt i.isLt) with hlt | heq
  · have := List.pairwise_iff_get.1 hinc i ⟨l.length - 1, by omega⟩ hlt
    omega
  · rw [← hi]
    have : i = (⟨l.length - 1, by omega⟩ : Fin l.length) := Fin.ext heq
    rw [this]

/-- Claim C6, corrected.  For a quantized, monophonic track (with the standard
track invariants: notes sorted time-ascending with positive durations, none
starting before the first measure) whose song yields strictly increasing
measure starts, `populate_measures` produces one measure per measure start; the
i-th measure's first element is the MeasureMarker carrying that measure's start
tick and 1-based index, and each measure is sorted by the key
`(start tick, priority)` — start tick first, then MeasureMarker <
TimeSignature < KeySignature < Tempo < Program/other < Notes and Rests.  The
sort is stable: for every key value it preserves the original relative order of
the elements with that key (the filter characterization in the second
conjunct). -/
theorem C6_measures_marker_first_time_then_priority (song : ChirpSong)
    (track : ChirpTrack) (fuel : Nat) (starts : List Int)
    (ms : List (List MeasureElem))
    (_hq : track.is_quantized = true) (_hp : track.is_polyphonic = false)
    (hsorted : List.Pairwise (fun a b : Note => a.start_time ≤ b.start_time) track.notes)
    (hdur : ∀ n ∈ track.notes, 0 < n.duration)
    (hstarts : song.measure_starts fuel = .ok starts)
    (hinc : List.Pairwise (fun a b : Int => a < b) starts)
    (hfirst : ∀ s0, starts.head? = some s0 → ∀ n ∈ track.notes, s0 ≤ n.start_time)
    (hok : populate_measures song track fuel = .ok ms) :
    (ms.length = starts.length ∧
     ∀ (i : Nat) (hi : i < ms.length) (hsi : i < starts.length),
       ms[i].head? = some (MeasureElem.marker ⟨starts[i], 1 + (i : Int)⟩) ∧
       List.Sorted elemLe ms[i]) ∧
    (∀ (l : List MeasureElem) (k : Int × Int),
      (List.insertionSort elemLe l).filter (fun c => decide (sort_order c = k)) =
        l.filter (fun c => decide (sort_order c = k))) := by
  refine ⟨?_, fun l k => insertionSort_filter_key elemStart elemPrio l k⟩
  rw [populate_measures, hstarts] at hok
  simp only [Bind.bind, Except.bind] at hok
  cases h1 : pyGet starts (-1) with
  | error e =>
    rw [h1] at hok
    simp only [Except.bind] at hok
    exact absurd hok (by simp)
  | ok last1 =>
    rw [h1] at hok
    simp only [Except.bind] at hok
    cases h2 : pyGet starts (-2) with
    | error e =>
      rw [h2] at hok
      simp only [Except.bind] at hok
      exact absurd hok (by simp)
    | ok last2 =>
      rw [h2] at hok
      simp only [Except.bind] at hok
      obtain ⟨hlen1, hv1⟩ := pyGet_neg_one_ok h1
      obtain ⟨hlen2, hv2⟩ := pyGet_neg_two_ok h2
      have hlast : last2 < last1 := by
        rw [hv1, hv2]
        exact List.pairwise_iff_get.1 hinc ⟨starts.length - 2, by omega⟩
          ⟨starts.length - 1, by omega⟩ (by rw [Fin.mk_lt_mk]; omega)
      have hboundpair : List.Pairwise (fun a b : Int => a < b)
          (starts ++ [2 * last1 - last2]) := by
        rw [List.pairwise_append]
        refine ⟨hinc, by simp, ?_⟩
        intro a ha b hb
        rcases List.mem_singleton.1 hb with rfl
        have hale : a ≤ starts.get ⟨starts.length - 1, by omega⟩ :=
          le_last_of_pairwise_lt hinc (by omega) a ha
        rw [← hv1] at hale
        omega
      have hheadlem : ∀ b0, (starts ++ [2 * last1 - last2]).head? = some b0 →
          ∀ n ∈ track.notes, b0 ≤ n.start_time := by
        intro b0 hb0
        cases hs : starts with
        | nil =>
          rw [hs] at hlen1
          simp at hlen1
        | cons s0 stail =>
          rw [hs, List.cons_append] at hb0
          injection hb0 with hb0
          rw [← hb0]
          apply hfirst
          rw [hs]
          rfl
      obtain ⟨golen, goidx⟩ := populate_go_facts song track
        (starts ++ [2 * last1 - last2]) 1 track.notes none ms hok hboundpair
        hheadlem hdur hsorted
      have hmslen : ms.length = starts.length := by
        rw [golen]
        simp only [List.length_append, List.length_cons, List.length_nil]
        omega
      refine ⟨hmslen, ?_⟩
      intro i hi hsi
      have hbi : i < (starts ++ [2 * last1 - last2]).length := by
        simp only [List.length_append, List.length_cons, List.length_nil]
        omega
      obtain ⟨hm, hs⟩ := goidx i hi hbi
      rw [List.getElem_append_left hsi] at hm
      exact ⟨hm, hs⟩

/-- Concrete song for claim C6: ppq 960, time signature (0, 4, 4), a tempo
change at tick 960, and a single track whose note spans the measure
boundary. -/
def c6song : ChirpSong :=
  { metadata := exampleMetadata,
    qticks_notes := 960, qticks_durations := 60,
    tracks := [{ name := "lead", channel := 0,
                 notes := [{ note_num := 60, start_time := 0, duration := 3900,
                             velocity := 100, tied := false }],
                 other := [], qticks_notes := 960, qticks_durations := 60 }],
    other := [], time_signature_changes := [⟨0, 4, 4⟩],
    key_signature_changes := [], tempo_changes := [⟨960, 120⟩],
    stats := { noteStartDeltas := none, durationDeltas := none } }

/-- The track of `c6song` (quantized against its grids 960/60, monophonic). -/
def c6track : ChirpTrack :=
  { name := "lead", channel := 0,
    notes := [{ note_num := 60, start_time := 0, duration := 3900,
                velocity := 100, tied := false }],
    other := [], qticks_notes := 960, qticks_durations := 60 }

/-- First measure `populate_measures` actually produces for `c6song`: the note
at tick 0 is sorted before the tempo change at tick 960, because the sort key
is time-major. -/
def c6measure1 : List MeasureElem :=
  [.marker ⟨0, 1⟩, .timeSig ⟨0, 4, 4⟩,
   .note { note_num := 60, start_time := 0, duration := 3840, velocity := 100, tied := true },
   .tempo ⟨960, 120⟩]

/-- Second measure produced for `c6song`: the carried note remainder and the
closing rest. -/
def c6measure2 : List MeasureElem :=
  [.marker ⟨3840, 2⟩,
   .note { note_num := 60, start_time := 3840, duration := 60, velocity := 100, tied := false },
   .rest ⟨3900, 3780⟩]

/-- The full measure list produced for `c6song`. -/
def c6measures : List (List MeasureElem) := [c6measure1, c6measure2]

/-- Claim C6, counterexample to priority-major ordering: in the first produced
measure a Note (priority 10) precedes the Tempo event (priority 3), because
items are ordered by start tick first and only then by priority. -/
theorem C6_counterexample :
    populate_measures c6song c6track 100 = .ok c6measures ∧
    ¬ List.Pairwise (fun a b : MeasureElem => elemPrio a ≤ elemPrio b) c6measure1 := by
  refine ⟨by decide, by decide⟩

/-- Witness for `C6_measures_marker_first_time_then_priority` at `c6song`. -/
theorem C6_witness :
    c6track.is_quantized = true ∧ c6measures.length = ([0, 3840] : List Int).length :=
  ⟨by decide,
    (C6_measures_marker_first_time_then_priority c6song c6track 100 [0, 3840] c6measures
      (by decide) (by decide) (by decide) (by decide) (by decide) (by decide)
      (fun s0 h => by
        injection h with h2
        rw [← h2]
        decide)
      (by decide)).1.1⟩
